import Mathlib

/-! Schedule conflict detection (`public/js/conflict-detector.js`)

A shallow embedding of the `ConflictDetector` class and the properties of it
that the specification states.

Modelling conventions.

* A JavaScript value that may be `undefined` is an `Option`; `none` is
  `undefined` (an absent field).
* A JavaScript number produced by `timeToMinutes` is an `Option Nat`; `none`
  is `NaN`.  `Number(str)` is modelled on strings of ASCII decimal digits
  (the double nearest to the numeral, the empty string being `0`) and is `NaN`
  on every other string; signed, fractional, exponent, hexadecimal and
  whitespace-padded numerals are outside the modelled domain.
* Numbers are IEEE 754 doubles: a product, sum, difference or quotient that is
  not a double is rounded to the nearest one, the one with the even significand
  when two are equally near (`toDouble`, `floorQuotient`).  Printing a number is
  modelled below `10^21`, from where on JavaScript prints an exponent, and
  reading one below `2^1024`, from where on `Number` gives `Infinity`.
* `startTime` and `endTime` are required string fields of a record.
* A method that can throw returns an `Except`; a method that also writes
  `this.conflicts` returns the detector it leaves as well.
-/

namespace RoomManagement

/-! ## Data model -/

/-- A primitive JavaScript value used as a record id or as a property value. -/
inductive JsPrim where
  | num (n : Nat)
  | str (s : String)
  deriving DecidableEq, Repr

/-- An exception thrown by the JavaScript runtime. -/
inductive JsError where
  | typeError (msg : String)
  deriving DecidableEq, Repr

/-- A schedule record, with the fields the detector reads. -/
structure ScheduleRecord where
  id : Option JsPrim := none
  subjectCode : Option String := none
  faculty : Option String := none
  roomName : Option String := none
  startTime : String
  endTime : String
  days : Option (List String) := none
  maxStudents : Option Nat := none
  deriving DecidableEq, Repr

/-- A row of the room directory. -/
structure Room where
  capacity : Nat
  type : String
  building : String
  deriving DecidableEq, Repr

/-- The object returned by `getOverlapTime`; `duration` is `none` for `NaN`. -/
structure OverlapTime where
  start : String
  end_ : String
  duration : Option Nat
  deriving DecidableEq, Repr

/-- A conflict object pushed on `this.conflicts`.  `conflictTime` is `none`
when the key is absent and `some none` when it is `null`. -/
structure Conflict where
  type : String
  severity : String
  message : String
  details : String
  schedules : List ScheduleRecord
  conflictTime : Option (Option OverlapTime) := none
  suggestion : String
  deriving DecidableEq, Repr

/-- A warning object pushed by `generateWarnings`. -/
structure Warning where
  type : String
  message : String
  suggestion : String
  deriving DecidableEq, Repr

/-- The object returned by `validateSchedule`. -/
structure Validation where
  isValid : Bool
  conflicts : List Conflict
  warnings : List Warning
  deriving DecidableEq, Repr

/-- A resolution object pushed by `autoResolveConflicts`. -/
structure Resolution where
  conflict : Conflict
  resolution : String
  details : String
  schedule : ScheduleRecord
  newRoom : String
  deriving DecidableEq, Repr

/-- The object returned by `getConflictSummary`.  `byType` lists the entries of
the `byType` object in insertion order. -/
structure ConflictSummary where
  total : Nat
  high : Nat
  medium : Nat
  low : Nat
  byType : List (String × Nat)
  deriving DecidableEq, Repr

/-- The detector object: `this.schedules` and `this.conflicts`. -/
structure ConflictDetector where
  schedules : List ScheduleRecord := []
  conflicts : List Conflict := []
  deriving DecidableEq, Repr

/-! ## String and number helpers -/

/-- String conversion in a template literal: `undefined` prints as text. -/
def jsStr (o : Option String) : String := o.getD "undefined"

/-- Embeds `str.split(':')` on the characters of a string. -/
def splitColon : List Char → List (List Char)
  | [] => [[]]
  | c :: cs =>
    if c = ':' then [] :: splitColon cs
    else
      match splitColon cs with
      | [] => [[c]]
      | h :: t => (c :: h) :: t

/-- The value of a decimal digit character. -/
def digitValue (c : Char) : Nat := c.toNat - 48

/-- The integer nearest to `a / b`, the even one of the two when `a / b` lies
halfway between them: the rounding of IEEE 754 arithmetic. -/
def roundHalfEven (a b : Nat) : Nat :=
  let q := a / b
  let r := a % b
  if 2 * r < b then q else if b < 2 * r then q + 1 else if q % 2 = 0 then q else q + 1

/-- The number of binary digits of `n`, with `fuel` steps. -/
def bitLengthAux : Nat → Nat → Nat
  | 0, _ => 0
  | fuel + 1, n => if n = 0 then 0 else bitLengthAux fuel (n / 2) + 1

/-- The number of binary digits of `n`; `0` for `0`. -/
def bitLength (n : Nat) : Nat := bitLengthAux n n

/-- The double nearest to the natural number `n`: `n` itself when it has at most
53 binary digits, else `n` rounded to 53 significant binary digits. -/
def toDouble (n : Nat) : Nat :=
  if bitLength n ≤ 53 then n
  else
    let s := 2 ^ (bitLength n - 53)
    roundHalfEven n s * s

/-- Embeds `Math.floor(n / d)` for doubles `n` and `d` that are natural numbers: the
quotient is rounded to 53 significant binary digits, then floored.  For a
quotient below 1 the rounding is to the spacing of `[1/2, 1)`, which has the
same floor. -/
def floorQuotient (n d : Nat) : Nat :=
  let q := n / d
  if 53 ≤ bitLength q then
    let s := 2 ^ (bitLength q - 53)
    roundHalfEven n (d * s) * s
  else
    let k := 53 - bitLength q
    roundHalfEven (n * 2 ^ k) d / 2 ^ k

/-- Embeds `Number(str)` on digit strings: the double nearest to the numeral; `none`
is `NaN`. -/
def jsNumber (cs : List Char) : Option Nat :=
  if cs.all Char.isDigit then
    some (toDouble (cs.foldl (fun n c => 10 * n + digitValue c) 0))
  else none

/-- Embeds `timeToMinutes(timeStr)`: `const [hours, minutes] = timeStr.split(':').map(Number)`,
then `hours * 60 + minutes`, the product and the sum each rounded to a double.
A missing second component is `undefined`, which makes the sum `NaN`. -/
def timeToMinutes (timeStr : String) : Option Nat :=
  match (splitColon timeStr.data).map jsNumber with
  | some hours :: some minutes :: _ => some (toDouble (toDouble (hours * 60) + minutes))
  | _ => none

/-- Embeds `n.toString().padStart(2, '0')`. -/
def pad2 (n : Nat) : String :=
  let s := toString n
  if s.length < 2 then "0" ++ s else s

/-- Embeds `minutesToTime(minutes)`: `Math.floor(minutes / 60)` and `minutes % 60`,
the remainder being exact; `NaN` prints as `NaN:NaN`. -/
def minutesToTime : Option Nat → String
  | some minutes => pad2 (floorQuotient minutes 60) ++ ":" ++ pad2 (minutes % 60)
  | none => "NaN:NaN"

/-- The comparison `x < y` of two numbers, false when either is `NaN`. -/
def jsLt : Option Nat → Option Nat → Bool
  | some x, some y => decide (x < y)
  | _, _ => false

/-- The comparison `x >= y` of two numbers, false when either is `NaN`. -/
def jsGe : Option Nat → Option Nat → Bool
  | some x, some y => decide (y ≤ x)
  | _, _ => false

/-- Embeds `Math.max(x, y)`. -/
def jsMax : Option Nat → Option Nat → Option Nat
  | some x, some y => some (max x y)
  | _, _ => none

/-- Embeds `Math.min(x, y)`. -/
def jsMin : Option Nat → Option Nat → Option Nat
  | some x, some y => some (min x y)
  | _, _ => none

/-- The difference `x - y`, used where `y < x` or an operand is `NaN`, rounded to
a double. -/
def jsSub : Option Nat → Option Nat → Option Nat
  | some x, some y => some (toDouble (x - y))
  | _, _ => none

/-- The strict equality `x === y` of two numbers, false when either is `NaN`. -/
def jsNumEq : Option Nat → Option Nat → Bool
  | some x, some y => decide (x = y)
  | _, _ => false

/-- The difference `x - y` of two numbers where the result may be negative, rounded
to a double. -/
def jsDiff : Option Nat → Option Nat → Option Int
  | some x, some y =>
    some (if y ≤ x then (toDouble (x - y) : Int) else -(toDouble (y - x) : Int))
  | _, _ => none

/-- The comparison `x > k` of a number with a constant, false for `NaN`. -/
def jsGtConst : Option Int → Int → Bool
  | some x, k => decide (k < x)
  | none, _ => false

/-! ## Pairwise predicates -/

/-- Embeds `hasTimeOverlap(schedule1, schedule2)`. -/
def hasTimeOverlap (schedule1 schedule2 : ScheduleRecord) : Bool :=
  let start1 := timeToMinutes schedule1.startTime
  let end1 := timeToMinutes schedule1.endTime
  let start2 := timeToMinutes schedule2.startTime
  let end2 := timeToMinutes schedule2.endTime
  jsLt start1 end2 && jsLt start2 end1

/-- Embeds `hasDayOverlap(schedule1, schedule2)`. -/
def hasDayOverlap (schedule1 schedule2 : ScheduleRecord) : Bool :=
  let days1 := schedule1.days.getD []
  let days2 := schedule2.days.getD []
  days1.any (fun day => days2.contains day)

/-- Embeds `hasRoomConflict(schedule1, schedule2)`. -/
def hasRoomConflict (schedule1 schedule2 : ScheduleRecord) : Bool :=
  if schedule1.roomName ≠ schedule2.roomName then false
  else if schedule1.id = schedule2.id then false
  else hasTimeOverlap schedule1 schedule2 && hasDayOverlap schedule1 schedule2

/-- Embeds `hasFacultyConflict(schedule1, schedule2)`. -/
def hasFacultyConflict (schedule1 schedule2 : ScheduleRecord) : Bool :=
  if schedule1.faculty ≠ schedule2.faculty then false
  else if schedule1.id = schedule2.id then false
  else hasTimeOverlap schedule1 schedule2 && hasDayOverlap schedule1 schedule2

/-- Embeds `getOverlapTime(schedule1, schedule2)`; `none` is `null`. -/
def getOverlapTime (schedule1 schedule2 : ScheduleRecord) : Option OverlapTime :=
  let start1 := timeToMinutes schedule1.startTime
  let end1 := timeToMinutes schedule1.endTime
  let start2 := timeToMinutes schedule2.startTime
  let end2 := timeToMinutes schedule2.endTime
  let overlapStart := jsMax start1 start2
  let overlapEnd := jsMin end1 end2
  if jsGe overlapStart overlapEnd then none
  else some
    { start := minutesToTime overlapStart
      end_ := minutesToTime overlapEnd
      duration := jsSub overlapEnd overlapStart }

/-! ## Room directory -/

/-- The `rooms` object literal of `getRoomDetails`, in insertion order. -/
def rooms : List (String × Room) :=
  [ ("Room 101", { capacity := 30, type := "Lecture Hall", building := "Main Building" }),
    ("Room 102", { capacity := 25, type := "Classroom", building := "Main Building" }),
    ("Room 201", { capacity := 40, type := "Lecture Hall", building := "Main Building" }),
    ("Room 105", { capacity := 45, type := "Classroom", building := "Science Building" }),
    ("Lab 201", { capacity := 20, type := "Laboratory", building := "Science Building" }),
    ("Lab 202", { capacity := 20, type := "Laboratory", building := "Science Building" }),
    ("Lab 301", { capacity := 20, type := "Laboratory", building := "Engineering Building" }),
    ("Lab 302", { capacity := 25, type := "Laboratory", building := "Engineering Building" }),
    ("Room 350", { capacity := 60, type := "Lecture Hall", building := "Engineering Building" }) ]

/-- Embeds `getRoomDetails(roomName)`: `rooms[roomName]`.  An `undefined` argument is
the property key `"undefined"`.  A name inherited from `Object.prototype`
yields a value without a `capacity`, which every caller treats like a missing
room; it is `none` here. -/
def getRoomDetails (roomName : Option String) : Option Room :=
  rooms.lookup (jsStr roomName)

/-- Embeds `Object.entries(room)` of a directory row: its properties in order. -/
def Room.entries (room : Room) : List (String × JsPrim) :=
  [ ("capacity", .num room.capacity), ("type", .str room.type),
    ("building", .str room.building) ]

/-- The property read `value.capacity` on a primitive value: `undefined`,
which compares as `NaN`. -/
def JsPrim.capacity (_ : JsPrim) : Option Nat := none


/-! ## The detector's methods -/

namespace ConflictDetector

/-- Embeds `isRoomBusyAtTime(roomName, timeSlot, days)`, reading `this.schedules`. -/
def isRoomBusyAtTime (self : ConflictDetector) (roomName : String)
    (timeSlot : Option OverlapTime) (days : Option (List String)) : Bool :=
  match timeSlot, days with
  | some slot, some days =>
    self.schedules.any fun schedule =>
      if schedule.roomName ≠ some roomName then false
      else
        let hasTimeConflict :=
          hasTimeOverlap { startTime := slot.start, endTime := slot.end_ } schedule
        let hasDayConflict := days.any fun day => (schedule.days.getD []).contains day
        hasTimeConflict && hasDayConflict
  | _, _ => false

/-- The operand `maxStudents || 20`: `undefined` and `0` are falsy. -/
def orTwenty : Option Nat → Nat
  | some 0 => 20
  | some n => n
  | none => 20

/-- Embeds `suggestRoomAlternative(schedule1, schedule2)`.  The directory is read as
`this.getRoomDetails()`, that is `rooms[undefined]`; `Object.entries` throws a
`TypeError` on `undefined`, and on a row it lists the row's own properties,
whose values are primitives. -/
def suggestRoomAlternative (self : ConflictDetector) (schedule1 schedule2 : ScheduleRecord) :
    Except JsError String :=
  let requiredCapacity := max (orTwenty schedule1.maxStudents) (orTwenty schedule2.maxStudents)
  match getRoomDetails none with
  | none => .error (.typeError "Cannot convert undefined or null to object")
  | some directory =>
    let availableRooms :=
      (directory.entries.filter fun entry =>
        jsGe entry.2.capacity (some requiredCapacity)).map Prod.fst
    let conflictTime := getOverlapTime schedule1 schedule2
    let availableAtTime := availableRooms.filter fun room =>
      !self.isRoomBusyAtTime room conflictTime schedule1.days
    match availableAtTime with
    | room :: _ => .ok ("Consider moving to " ++ room ++ " which is available during this time")
    | [] => .ok "No suitable alternative rooms found. Consider changing the schedule time."

/-- The inner loop of `checkRoomConflicts`: `schedule1` against every later
record.  The completion comes with the detector as the loop left it. -/
def checkRoomConflictsFrom (schedule1 : ScheduleRecord) :
    List ScheduleRecord → ConflictDetector → Except JsError Unit × ConflictDetector
  | [], self => (.ok (), self)
  | schedule2 :: rest, self =>
    if hasRoomConflict schedule1 schedule2 then
      match self.suggestRoomAlternative schedule1 schedule2 with
      | .error e => (.error e, self)
      | .ok suggestion =>
        checkRoomConflictsFrom schedule1 rest
          { self with
            conflicts := self.conflicts ++
              [{ type := "room_conflict"
                 severity := "high"
                 message := "Room " ++ jsStr schedule1.roomName ++ " is double-booked"
                 details := jsStr schedule1.subjectCode ++ " and " ++
                   jsStr schedule2.subjectCode ++ " are both scheduled in " ++
                   jsStr schedule1.roomName
                 schedules := [schedule1, schedule2]
                 conflictTime := some (getOverlapTime schedule1 schedule2)
                 suggestion := suggestion }] }
    else checkRoomConflictsFrom schedule1 rest self

/-- Embeds `checkRoomConflicts(schedules)`: every pair `i < j`, in loop order. -/
def checkRoomConflicts :
    List ScheduleRecord → ConflictDetector → Except JsError Unit × ConflictDetector
  | [], self => (.ok (), self)
  | schedule1 :: rest, self =>
    match checkRoomConflictsFrom schedule1 rest self with
    | (.error e, self) => (.error e, self)
    | (.ok (), self) => checkRoomConflicts rest self

/-- The conflict object pushed by `checkFacultyConflicts`. -/
def facultyConflict (schedule1 schedule2 : ScheduleRecord) : Conflict :=
  { type := "faculty_conflict"
    severity := "high"
    message := jsStr schedule1.faculty ++ " is double-booked"
    details := jsStr schedule1.faculty ++ " is scheduled for both " ++
      jsStr schedule1.subjectCode ++ " and " ++ jsStr schedule2.subjectCode
    schedules := [schedule1, schedule2]
    conflictTime := some (getOverlapTime schedule1 schedule2)
    suggestion :=
      "Consider rescheduling one of the classes or assigning a different faculty member" }

/-- The inner loop of `checkFacultyConflicts`. -/
def checkFacultyConflictsFrom (schedule1 : ScheduleRecord) :
    List ScheduleRecord → ConflictDetector → ConflictDetector
  | [], self => self
  | schedule2 :: rest, self =>
    if hasFacultyConflict schedule1 schedule2 then
      checkFacultyConflictsFrom schedule1 rest
        { self with conflicts := self.conflicts ++ [facultyConflict schedule1 schedule2] }
    else checkFacultyConflictsFrom schedule1 rest self

/-- Embeds `checkFacultyConflicts(schedules)`: every pair `i < j`, in loop order. -/
def checkFacultyConflicts : List ScheduleRecord → ConflictDetector → ConflictDetector
  | [], self => self
  | schedule1 :: rest, self =>
    checkFacultyConflicts rest (checkFacultyConflictsFrom schedule1 rest self)

/-- The conflict object pushed by `checkCapacityViolations`. -/
def capacityViolation (schedule : ScheduleRecord) (maxStudents : Nat) (room : Room) : Conflict :=
  { type := "capacity_violation"
    severity := "medium"
    message := jsStr schedule.roomName ++ " capacity exceeded"
    details := jsStr schedule.subjectCode ++ " has " ++ toString maxStudents ++
      " students but " ++ jsStr schedule.roomName ++ " only accommodates " ++
      toString room.capacity
    schedules := [schedule]
    suggestion := "Consider moving to a larger room or reducing class size to " ++
      toString room.capacity }

/-- Embeds `checkCapacityViolations(schedules)`: the `forEach` over the records.
The test is `room && schedule.maxStudents && schedule.maxStudents > room.capacity`. -/
def checkCapacityViolations : List ScheduleRecord → ConflictDetector → ConflictDetector
  | [], self => self
  | schedule :: rest, self =>
    match getRoomDetails schedule.roomName, schedule.maxStudents with
    | some room, some maxStudents =>
      if maxStudents ≠ 0 ∧ maxStudents > room.capacity then
        checkCapacityViolations rest
          { self with
            conflicts := self.conflicts ++ [capacityViolation schedule maxStudents room] }
      else checkCapacityViolations rest self
    | _, _ => checkCapacityViolations rest self

/-- The working set of `detectConflicts`: `newSchedule ? [...this.schedules,
newSchedule] : this.schedules`. -/
def schedulesToCheck (self : ConflictDetector) (newSchedule : Option ScheduleRecord) :
    List ScheduleRecord :=
  match newSchedule with
  | some schedule => self.schedules ++ [schedule]
  | none => self.schedules

/-- Embeds `detectConflicts(newSchedule = null)`: the completion (the returned list
or the exception thrown) and the detector afterwards. -/
def detectConflicts (self : ConflictDetector) (newSchedule : Option ScheduleRecord) :
    Except JsError (List Conflict) × ConflictDetector :=
  let schedulesToCheck := self.schedulesToCheck newSchedule
  let self := { self with conflicts := [] }
  match checkRoomConflicts schedulesToCheck self with
  | (.error e, self) => (.error e, self)
  | (.ok (), self) =>
    let self := checkFacultyConflicts schedulesToCheck self
    let self := checkCapacityViolations schedulesToCheck self
    (.ok self.conflicts, self)

/-- Embeds `s.days.some(day => schedule.days.includes(day))` of `generateWarnings`:
neither `days` is defaulted.  Reading `some` of an absent `s.days` throws; the
callback runs only when `s.days` is not empty, and then reading `includes` of an
absent `schedule.days` throws. -/
def sharesDayStrict (sDays scheduleDays : Option (List String)) : Except JsError Bool :=
  match sDays with
  | none => .error (.typeError "Cannot read properties of undefined (reading 'some')")
  | some [] => .ok false
  | some (day :: more) =>
    match scheduleDays with
    | none => .error (.typeError "Cannot read properties of undefined (reading 'includes')")
    | some days => .ok ((day :: more).any fun d => days.contains d)

/-- The callback of the `filter` in `generateWarnings`, for one existing record `s`:
`s.faculty === schedule.faculty && s.days.some(...) && (timeToMinutes(s.endTime) ===
timeToMinutes(schedule.startTime) || timeToMinutes(schedule.endTime) ===
timeToMinutes(s.startTime))`, evaluated left to right. -/
def isBackToBack (schedule s : ScheduleRecord) : Except JsError Bool :=
  if s.faculty ≠ schedule.faculty then .ok false
  else
    match sharesDayStrict s.days schedule.days with
    | .error e => .error e
    | .ok false => .ok false
    | .ok true =>
      .ok (jsNumEq (timeToMinutes s.endTime) (timeToMinutes schedule.startTime) ||
        jsNumEq (timeToMinutes schedule.endTime) (timeToMinutes s.startTime))

/-- The `this.schedules.filter(...)` of `generateWarnings`, record by record. -/
def backToBackFilter (schedule : ScheduleRecord) :
    List ScheduleRecord → Except JsError (List ScheduleRecord)
  | [] => .ok []
  | s :: rest =>
    match isBackToBack schedule s with
    | .error e => .error e
    | .ok keep =>
      match backToBackFilter schedule rest with
      | .error e => .error e
      | .ok kept => .ok (if keep then s :: kept else kept)

/-- The warning pushed for back-to-back classes. -/
def backToBackWarning (schedule : ScheduleRecord) : Warning :=
  { type := "back_to_back"
    message := jsStr schedule.faculty ++ " has back-to-back classes"
    suggestion := "Consider adding a break between classes" }

/-- The warning pushed for unusual hours. -/
def unusualHoursWarning : Warning :=
  { type := "unusual_hours"
    message := "Class scheduled outside normal hours (7 AM - 6 PM)"
    suggestion := "Confirm if this time is acceptable" }

/-- The warning pushed for a long duration. -/
def longDurationWarning : Warning :=
  { type := "long_duration"
    message := "Class duration exceeds 3 hours"
    suggestion := "Consider adding breaks or splitting into multiple sessions" }

/-- Embeds `generateWarnings(schedule)`.  `startHour` is `timeToMinutes(startTime) /
60`, a fraction; the tests `startHour < 7` and `startHour > 18` are taken on
the numerator, as `minutes < 7 * 60` and `minutes > 18 * 60`. -/
def generateWarnings (self : ConflictDetector) (schedule : ScheduleRecord) :
    Except JsError (List Warning) :=
  match backToBackFilter schedule self.schedules with
  | .error e => .error e
  | .ok backToBack =>
    let warnings : List Warning := []
    let warnings :=
      if backToBack.length > 0 then warnings ++ [backToBackWarning schedule] else warnings
    let startMinutes := timeToMinutes schedule.startTime
    let warnings :=
      if jsLt startMinutes (some (7 * 60)) || jsLt (some (18 * 60)) startMinutes then
        warnings ++ [unusualHoursWarning]
      else warnings
    let duration := jsDiff (timeToMinutes schedule.endTime) (timeToMinutes schedule.startTime)
    let warnings :=
      if jsGtConst duration 180 then warnings ++ [longDurationWarning] else warnings
    .ok warnings

/-- The test of the `filter` in `validateSchedule`: some involved schedule is
`newSchedule` or has its `subjectCode` and `startTime`.  The identity test
`s === newSchedule` is taken as equality of the records: an identical object
has equal fields, and a record with equal fields passes the second test, so
the value of the disjunction is the same. -/
def involvesSchedule (newSchedule : ScheduleRecord) (conflict : Conflict) : Bool :=
  conflict.schedules.any fun s =>
    decide (s = newSchedule) ||
      (decide (s.subjectCode = newSchedule.subjectCode) &&
        decide (s.startTime = newSchedule.startTime))

/-- Embeds `validateSchedule(newSchedule)`: the completion and the detector
afterwards. -/
def validateSchedule (self : ConflictDetector) (newSchedule : ScheduleRecord) :
    Except JsError Validation × ConflictDetector :=
  match self.detectConflicts (some newSchedule) with
  | (.error e, self) => (.error e, self)
  | (.ok tempConflicts, self) =>
    let newScheduleConflicts := tempConflicts.filter (involvesSchedule newSchedule)
    match self.generateWarnings newSchedule with
    | .error e => (.error e, self)
    | .ok warnings =>
      (.ok { isValid := newScheduleConflicts.length == 0
             conflicts := newScheduleConflicts
             warnings := warnings }, self)

/-- The `for` loop of `findAlternativeRoom` over the room options. -/
def findAlternativeRoomLoop (schedule : ScheduleRecord) :
    List String → ConflictDetector → Except JsError (Option String) × ConflictDetector
  | [], self => (.ok none, self)
  | roomName :: rest, self =>
    let testSchedule := { schedule with roomName := some roomName }
    match self.validateSchedule testSchedule with
    | (.error e, self) => (.error e, self)
    | (.ok validation, self) =>
      if validation.isValid then (.ok (some roomName), self)
      else findAlternativeRoomLoop schedule rest self

/-- Embeds `findAlternativeRoom(schedule)`; `none` is `null`.  The directory is read
as `this.getRoomDetails()`, as in `suggestRoomAlternative`. -/
def findAlternativeRoom (self : ConflictDetector) (schedule : ScheduleRecord) :
    Except JsError (Option String) × ConflictDetector :=
  let requiredCapacity := orTwenty schedule.maxStudents
  match getRoomDetails none with
  | none => (.error (.typeError "Cannot convert undefined or null to object"), self)
  | some directory =>
    let roomOptions := directory.entries.filter fun entry =>
      jsGe entry.2.capacity (some requiredCapacity) &&
        decide (some entry.1 ≠ schedule.roomName)
    findAlternativeRoomLoop schedule (roomOptions.map Prod.fst) self

/-- The body of the `forEach` in `autoResolveConflicts`, over the conflicts that
were tracked when the call started (the array `forEach` was called on; the calls
of `detectConflicts` below assign a new array to `this.conflicts`).  Reading
`conflict.schedules[0]` of an empty list gives `undefined`, and
`findAlternativeRoom` then throws on `schedule.maxStudents`.  The test
`if (alternative)` is false for `null` and for the empty string. -/
def autoResolveLoop :
    List Conflict → List Resolution → ConflictDetector →
      Except JsError (List Resolution) × ConflictDetector
  | [], resolutions, self => (.ok resolutions, self)
  | conflict :: rest, resolutions, self =>
    if conflict.type = "room_conflict" then
      match conflict.schedules with
      | [] =>
        (.error (.typeError "Cannot read properties of undefined (reading 'maxStudents')"),
          self)
      | schedule :: _ =>
        match self.findAlternativeRoom schedule with
        | (.error e, self) => (.error e, self)
        | (.ok alternative, self) =>
          match alternative with
          | some newRoom =>
            if newRoom ≠ "" then
              autoResolveLoop rest
                (resolutions ++
                  [{ conflict := conflict
                     resolution := "room_change"
                     details := "Move " ++ jsStr schedule.subjectCode ++ " to " ++ newRoom
                     schedule := schedule
                     newRoom := newRoom }])
                self
            else autoResolveLoop rest resolutions self
          | none => autoResolveLoop rest resolutions self
    else autoResolveLoop rest resolutions self

/-- Embeds `autoResolveConflicts()`: the completion and the detector afterwards. -/
def autoResolveConflicts (self : ConflictDetector) :
    Except JsError (List Resolution) × ConflictDetector :=
  autoResolveLoop self.conflicts [] self

/-- The statement `summary.byType[type] = (summary.byType[type] || 0) + 1` on the
entries of `byType`: an existing key keeps its place and gets its count plus one,
a new key is added last with count one. -/
def countType : List (String × Nat) → String → List (String × Nat)
  | [], type => [(type, 1)]
  | (key, count) :: rest, type =>
    if key = type then (key, count + 1) :: rest else (key, count) :: countType rest type

/-- Embeds `getConflictSummary()`.  The conflict types are the three type names of the
data model; a type named like a property inherited from `Object.prototype` is
outside the modelled domain. -/
def getConflictSummary (self : ConflictDetector) : ConflictSummary :=
  { total := self.conflicts.length
    high := (self.conflicts.filter fun c => decide (c.severity = "high")).length
    medium := (self.conflicts.filter fun c => decide (c.severity = "medium")).length
    low := (self.conflicts.filter fun c => decide (c.severity = "low")).length
    byType := self.conflicts.foldl (fun byType conflict => countType byType conflict.type) [] }

end ConflictDetector

open ConflictDetector

/-! ## Concrete records used in the statements -/

/-- Scenario 1, schedule X: room `A101`, 09:00-10:00, Monday and Wednesday. -/
def scenarioX : ScheduleRecord :=
  { id := some (.num 1), subjectCode := some "X", roomName := some "A101",
    startTime := "09:00", endTime := "10:00", days := some ["Monday", "Wednesday"] }

/-- Scenario 1, schedule Y: room `A101`, 09:30-10:30, Monday and Wednesday. -/
def scenarioY : ScheduleRecord :=
  { id := some (.num 2), subjectCode := some "Y", roomName := some "A101",
    startTime := "09:30", endTime := "10:30", days := some ["Monday", "Wednesday"] }

/-! ## Vocabulary of the statements -/

/-- The shape `HH:MM`: two decimal digits, a colon, two decimal digits. -/
def isHHMM (s : String) : Bool :=
  match s.data with
  | [h1, h2, c, m1, m2] => h1.isDigit && h2.isDigit && c == ':' && m1.isDigit && m2.isDigit
  | _ => false

/-- The hour `HH` of an `HH:MM` string. -/
def hhmmHours (s : String) : Nat :=
  match s.data with
  | [h1, h2, _, _, _] => 10 * digitValue h1 + digitValue h2
  | _ => 0

/-- The minute `MM` of an `HH:MM` string. -/
def hhmmMins (s : String) : Nat :=
  match s.data with
  | [_, _, _, m1, m2] => 10 * digitValue m1 + digitValue m2
  | _ => 0

/-- Minutes since midnight of an `HH:MM` string: `60 * HH + MM`. -/
def hhmmMinutes (s : String) : Nat := hhmmHours s * 60 + hhmmMins s

/-- A time of day within `00:00`-`23:59`. -/
def isClockTime (s : String) : Bool :=
  isHHMM s && decide (hhmmHours s ≤ 23) && decide (hhmmMins s ≤ 59)

/-- Some pair `i < j` of the list satisfies `hasRoomConflict`. -/
def anyRoomConflict : List ScheduleRecord → Bool
  | [] => false
  | schedule1 :: rest => rest.any (hasRoomConflict schedule1) || anyRoomConflict rest

/-- The faculty conflicts of the pairs `i < j` of a list, in loop order. -/
def facultyConflictsOf : List ScheduleRecord → List Conflict
  | [] => []
  | schedule1 :: rest =>
    (rest.filter (hasFacultyConflict schedule1)).map (facultyConflict schedule1) ++
      facultyConflictsOf rest

/-- The capacity violation of one record, if it has one. -/
def capacityViolationOf (schedule : ScheduleRecord) : Option Conflict :=
  match getRoomDetails schedule.roomName, schedule.maxStudents with
  | some room, some maxStudents =>
    if maxStudents ≠ 0 ∧ maxStudents > room.capacity then
      some (capacityViolation schedule maxStudents room)
    else none
  | _, _ => none

/-- The list `detectConflicts` returns when no exception is thrown: the faculty
conflicts, then the capacity violations. -/
def reportedConflicts (ws : List ScheduleRecord) : List Conflict :=
  facultyConflictsOf ws ++ ws.filterMap capacityViolationOf

/-- What identifies a conflict: its type and the set of records it involves. -/
def conflictKey (c : Conflict) : String × Finset ScheduleRecord :=
  (c.type, c.schedules.toFinset)

/-- The set of conflicts of a list, each identified by `conflictKey`. -/
def conflictKeys (cs : List Conflict) : Finset (String × Finset ScheduleRecord) :=
  (cs.map conflictKey).toFinset

/-- The outcome of a call: the exception thrown, or the set of conflicts returned. -/
def outcome (r : Except JsError (List Conflict)) :
    Except JsError (Finset (String × Finset ScheduleRecord)) :=
  r.map conflictKeys

/-- The exception thrown by `Object.entries(undefined)`. -/
def entriesError : JsError := .typeError "Cannot convert undefined or null to object"

/-- A record in `Room 101` (capacity 30) with 60 students, 09:00-10:00 on Monday. -/
def overbooked : ScheduleRecord :=
  { id := some (.num 1), subjectCode := some "CS101", roomName := some "Room 101",
    startTime := "09:00", endTime := "10:00", days := some ["Monday"],
    maxStudents := some 60 }

/-- A second record in `Room 101`, 09:30-10:30 on Monday, without `maxStudents`. -/
def roommate : ScheduleRecord :=
  { id := some (.num 2), subjectCode := some "CS102", roomName := some "Room 101",
    startTime := "09:30", endTime := "10:30", days := some ["Monday"] }

/-- A record of faculty `Dr. Santos` in room `A101`, 09:00-10:00 on Monday. -/
def santosA : ScheduleRecord :=
  { id := some (.num 1), subjectCode := some "X", faculty := some "Dr. Santos",
    roomName := some "A101", startTime := "09:00", endTime := "10:00",
    days := some ["Monday"] }

/-- A record of faculty `Dr. Santos` in room `B205`, 09:30-10:30 on Monday. -/
def santosB : ScheduleRecord :=
  { id := some (.num 2), subjectCode := some "Y", faculty := some "Dr. Santos",
    roomName := some "B205", startTime := "09:30", endTime := "10:30",
    days := some ["Monday"] }

/-- The back-to-back test of `generateWarnings` on records that both have a
`days` list: the same faculty, a shared day, and one record ending at the minute
the other starts. -/
def backToBackWith (schedule s : ScheduleRecord) : Bool :=
  decide (s.faculty = schedule.faculty) && hasDayOverlap s schedule &&
    (jsNumEq (timeToMinutes s.endTime) (timeToMinutes schedule.startTime) ||
      jsNumEq (timeToMinutes schedule.endTime) (timeToMinutes s.startTime))

/-- The warnings `generateWarnings` returns once the back-to-back scan has kept
the records `backToBack`. -/
def warningsFor (schedule : ScheduleRecord) (backToBack : List ScheduleRecord) : List Warning :=
  (if backToBack.length > 0 then [backToBackWarning schedule] else []) ++
    (if jsLt (timeToMinutes schedule.startTime) (some (7 * 60)) ||
        jsLt (some (18 * 60)) (timeToMinutes schedule.startTime) then [unusualHoursWarning]
      else []) ++
    (if jsGtConst (jsDiff (timeToMinutes schedule.endTime) (timeToMinutes schedule.startTime))
        180 then [longDurationWarning] else [])

/-- The suggestion the specification describes for `suggestRoomAlternative(a, b)`:
the first room of the directory, in its order, whose capacity is at least
`max(a.maxStudents or 20, b.maxStudents or 20)` and which is not busy during the
conflict window of `(a, b)` on the days of `a`; the fallback string when no
room qualifies. -/
def suggestRoomAlternativeSpec (self : ConflictDetector) (a b : ScheduleRecord) : String :=
  let requiredCapacity := max (orTwenty a.maxStudents) (orTwenty b.maxStudents)
  let eligible :=
    (rooms.filter fun entry => decide (requiredCapacity ≤ entry.2.capacity)).map Prod.fst
  let window := getOverlapTime a b
  match eligible.filter fun room => !self.isRoomBusyAtTime room window a.days with
  | room :: _ => "Consider moving to " ++ room ++ " which is available during this time"
  | [] => "No suitable alternative rooms found. Consider changing the schedule time."

/-- The room the specification describes for `findAlternativeRoom(s)`: the first
room of the directory, in its order, with capacity at least `s.maxStudents or
20` and a name other than `s.roomName`, for which `validateSchedule` of `s` with
that room substituted reports `isValid`; `none` when there is none. -/
def findAlternativeRoomSpec (self : ConflictDetector) (schedule : ScheduleRecord) :
    Except JsError (Option String) × ConflictDetector :=
  let requiredCapacity := orTwenty schedule.maxStudents
  let roomOptions := rooms.filter fun entry =>
    decide (requiredCapacity ≤ entry.2.capacity) && decide (some entry.1 ≠ schedule.roomName)
  findAlternativeRoomLoop schedule (roomOptions.map Prod.fst) self

/-- Scenario 2, schedule Y: room `A101`, 09:30-10:30, Tuesday and Thursday. -/
def scenario2Y : ScheduleRecord :=
  { id := some (.num 2), subjectCode := some "Y", roomName := some "A101",
    startTime := "09:30", endTime := "10:30", days := some ["Tuesday", "Thursday"] }

/-- Scenario 3, schedule X: `Dr. Santos`, room `A101`, 08:00-10:00 on Monday. -/
def scenario3X : ScheduleRecord :=
  { id := some (.num 1), subjectCode := some "X", faculty := some "Dr. Santos",
    roomName := some "A101", startTime := "08:00", endTime := "10:00",
    days := some ["Monday"] }

/-- Scenario 3, candidate Y: `Dr. Santos`, room `B205`, 10:00-12:00 on Monday. -/
def scenario3Y : ScheduleRecord :=
  { id := some (.num 2), subjectCode := some "Y", faculty := some "Dr. Santos",
    roomName := some "B205", startTime := "10:00", endTime := "12:00",
    days := some ["Monday"] }

/-- An existing record of faculty `Dr. Santos` without a `days` field. -/
def noDays : ScheduleRecord :=
  { id := some (.num 7), subjectCode := some "Z", faculty := some "Dr. Santos",
    roomName := some "C301", startTime := "13:00", endTime := "14:00" }

/-- A candidate of faculty `Dr. Santos`, 08:00-12:00 on Monday: four hours. -/
def fourHours : ScheduleRecord :=
  { id := some (.num 8), subjectCode := some "W", faculty := some "Dr. Santos",
    roomName := some "B205", startTime := "08:00", endTime := "12:00",
    days := some ["Monday"] }

/-- A candidate starting at 18:30, on Monday, 18:30-19:30. -/
def evening : ScheduleRecord :=
  { id := some (.num 9), subjectCode := some "E", faculty := some "Dr. Reyes",
    roomName := some "B205", startTime := "18:30", endTime := "19:30",
    days := some ["Monday"] }

/-- A candidate that conflicts with nothing but has the `subjectCode` and the
`startTime` of `santosA`: another id, faculty and room, on Friday. -/
def lookalike : ScheduleRecord :=
  { id := some (.num 3), subjectCode := some "X", faculty := some "Dr. Reyes",
    roomName := some "C301", startTime := "09:00", endTime := "10:00",
    days := some ["Friday"] }

/-- A record in `Room 201` (capacity 40) with 40 students, 09:00-10:00 on Monday. -/
def fullA : ScheduleRecord :=
  { id := some (.num 1), subjectCode := some "A", roomName := some "Room 201",
    startTime := "09:00", endTime := "10:00", days := some ["Monday"],
    maxStudents := some 40 }

/-- A record in `Room 201` with 40 students, 09:30-10:30 on Monday. -/
def fullB : ScheduleRecord :=
  { id := some (.num 2), subjectCode := some "B", roomName := some "Room 201",
    startTime := "09:30", endTime := "10:30", days := some ["Monday"],
    maxStudents := some 40 }

/-- A candidate carrying the id of `santosA`: `Dr. Santos`, room `C301`,
09:15-09:45 on Monday. -/
def twin : ScheduleRecord :=
  { id := some (.num 1), subjectCode := some "T", faculty := some "Dr. Santos",
    roomName := some "C301", startTime := "09:15", endTime := "09:45",
    days := some ["Monday"] }

/-- The three conflict types of the data model. -/
def conflictTypes : List String := ["room_conflict", "faculty_conflict", "capacity_violation"]

/-- A record of `Dr. Cruz` in `Room 201` (capacity 40) with 40 students,
09:00-10:00 on Monday. -/
def bookedA : ScheduleRecord :=
  { id := some (.num 1), subjectCode := some "A", faculty := some "Dr. Cruz",
    roomName := some "Room 201", startTime := "09:00", endTime := "10:00",
    days := some ["Monday"], maxStudents := some 40 }

/-- A record of `Dr. Reyes` in `Room 201` with 40 students, 09:30-10:30 on Monday. -/
def bookedB : ScheduleRecord :=
  { id := some (.num 2), subjectCode := some "B", faculty := some "Dr. Reyes",
    roomName := some "Room 201", startTime := "09:30", endTime := "10:30",
    days := some ["Monday"], maxStudents := some 40 }

/-- A tracked `room_conflict` between `bookedA` and `bookedB`, as
`checkRoomConflicts` builds it, with the fallback suggestion. -/
def trackedRoomConflict : Conflict :=
  { type := "room_conflict"
    severity := "high"
    message := "Room Room 201 is double-booked"
    details := "A and B are both scheduled in Room 201"
    schedules := [bookedA, bookedB]
    conflictTime := some (getOverlapTime bookedA bookedB)
    suggestion := "No suitable alternative rooms found. Consider changing the schedule time." }

/-- A record without a `faculty` field: room `A101`, 09:00-10:00 on Monday. -/
def noFacultyA : ScheduleRecord :=
  { id := some (.num 1), subjectCode := some "X", roomName := some "A101",
    startTime := "09:00", endTime := "10:00", days := some ["Monday"] }

/-- A second record without a `faculty` field: room `B205`, 09:30-10:30 on Monday. -/
def noFacultyB : ScheduleRecord :=
  { id := some (.num 2), subjectCode := some "Y", roomName := some "B205",
    startTime := "09:30", endTime := "10:30", days := some ["Monday"] }

/-- A record without an `id` field: `Dr. Santos`, room `A101`, 09:00-10:00 on Monday. -/
def noIdA : ScheduleRecord :=
  { subjectCode := some "X", faculty := some "Dr. Santos", roomName := some "A101",
    startTime := "09:00", endTime := "10:00", days := some ["Monday"] }

/-- A second record without an `id` field: `Dr. Santos`, room `A101`, 09:30-10:30 on
Monday. -/
def noIdB : ScheduleRecord :=
  { subjectCode := some "Y", faculty := some "Dr. Santos", roomName := some "A101",
    startTime := "09:30", endTime := "10:30", days := some ["Monday"] }

/-- A record whose start time is after its end time: `Dr. Santos`, room `A101`,
10:00-09:00 on Monday. -/
def inverted : ScheduleRecord :=
  { id := some (.num 1), subjectCode := some "X", faculty := some "Dr. Santos",
    roomName := some "A101", startTime := "10:00", endTime := "09:00",
    days := some ["Monday"] }

/-- A record of `Dr. Santos` in room `B205`, 08:00-12:00 on Monday. -/
def morning : ScheduleRecord :=
  { id := some (.num 2), subjectCode := some "Y", faculty := some "Dr. Santos",
    roomName := some "B205", startTime := "08:00", endTime := "12:00",
    days := some ["Monday"] }

/-! ## Rounding to a double -/

theorem bitLengthAux_le (fuel : Nat) :
    ∀ (n j : Nat), n < 2 ^ j → bitLengthAux fuel n ≤ j := by
  induction fuel with
  | zero => intro n j _; exact Nat.zero_le _
  | succ fuel ih =>
    intro n j h
    simp only [bitLengthAux]
    split_ifs with h0
    · exact Nat.zero_le _
    · cases j with
      | zero => simp at h; exact absurd h h0
      | succ j =>
        have : n / 2 < 2 ^ j := by
          rw [Nat.div_lt_iff_lt_mul (by decide)]
          rw [Nat.pow_succ] at h
          exact h
        exact Nat.succ_le_succ (ih _ _ this)

theorem bitLength_le {n j : Nat} (h : n < 2 ^ j) : bitLength n ≤ j :=
  bitLengthAux_le n n j h

theorem toDouble_of_lt {n : Nat} (h : n < 2 ^ 53) : toDouble n = n := by
  unfold toDouble
  rw [if_pos (bitLength_le h)]

theorem le_roundHalfEven (a b : Nat) : a / b ≤ roundHalfEven a b := by
  unfold roundHalfEven
  simp only
  split_ifs <;> omega

theorem roundHalfEven_le (a b : Nat) (hb : 0 < b) :
    roundHalfEven a b ≤ (2 * a + b) / (2 * b) := by
  have hq : a / b ≤ (2 * a + b) / (2 * b) := by
    rw [Nat.le_div_iff_mul_le (by omega)]
    have := Nat.div_mul_le_self a b
    calc a / b * (2 * b) = 2 * (a / b * b) := by ring
      _ ≤ 2 * a := by omega
      _ ≤ 2 * a + b := by omega
  have hup : 2 * (a % b) ≥ b → a / b + 1 ≤ (2 * a + b) / (2 * b) := by
    intro hr
    rw [Nat.le_div_iff_mul_le (by omega)]
    have := Nat.div_add_mod a b
    calc (a / b + 1) * (2 * b) = 2 * (b * (a / b)) + 2 * b := by ring
      _ ≤ 2 * (b * (a / b)) + (2 * (a % b) + b) := by omega
      _ = 2 * (b * (a / b) + a % b) + b := by ring
      _ = 2 * a + b := by rw [this]
  unfold roundHalfEven
  simp only
  split_ifs with h1 h2 h3
  · exact hq
  · exact hup (by omega)
  · exact hq
  · exact hup (by omega)

theorem floorQuotient_sixty_of_lt {n : Nat} (h : n < 2 ^ 53) : floorQuotient n 60 = n / 60 := by
  have hq : n / 60 < 2 ^ 48 := by
    rw [Nat.div_lt_iff_lt_mul (by decide)]
    calc n < 2 ^ 53 := h
      _ ≤ 2 ^ 48 * 60 := by decide
  have hb : bitLength (n / 60) ≤ 48 := bitLength_le hq
  unfold floorQuotient
  simp only
  rw [if_neg (by omega)]
  obtain ⟨k, hk, hk5⟩ : ∃ k, 53 - bitLength (n / 60) = k ∧ 5 ≤ k := ⟨_, rfl, by omega⟩
  rw [hk]
  have hP : 32 ≤ 2 ^ k := by
    calc 32 = 2 ^ 5 := by decide
      _ ≤ 2 ^ k := Nat.pow_le_pow_right (by decide) hk5
  generalize 2 ^ k = P at hP
  have hpos : 0 < P := by omega
  apply Nat.le_antisymm
  · have hle := roundHalfEven_le (n * P) 60 (by decide)
    have hlt : (2 * (n * P) + 60) / (2 * 60) < (n / 60 + 1) * P := by
      rw [Nat.div_lt_iff_lt_mul (by decide)]
      have hn : n ≤ 60 * (n / 60) + 59 := by omega
      have h1 : n * P ≤ (60 * (n / 60) + 59) * P := Nat.mul_le_mul_right P hn
      have h2 : (60 * (n / 60) + 59) * P = 60 * (n / 60 * P) + 59 * P := by ring
      have h3 : (n / 60 + 1) * P * (2 * 60) = 120 * (n / 60 * P) + 120 * P := by ring
      omega
    have : roundHalfEven (n * P) 60 / P < n / 60 + 1 := by
      rw [Nat.div_lt_iff_lt_mul hpos]
      omega
    omega
  · rw [Nat.le_div_iff_mul_le hpos]
    have hge := le_roundHalfEven (n * P) 60
    have : n / 60 * P ≤ n * P / 60 := by
      rw [Nat.le_div_iff_mul_le (by decide)]
      have := Nat.div_mul_le_self n 60
      calc n / 60 * P * 60 = n / 60 * 60 * P := by ring
        _ ≤ n * P := Nat.mul_le_mul_right P this
    omega

/-! ## Time strings -/

theorem digit_range {c : Char} (h : c.isDigit = true) : 48 ≤ c.toNat ∧ c.toNat ≤ 57 := by
  simp only [Char.isDigit, Bool.and_eq_true, decide_eq_true_eq] at h
  exact ⟨h.1, h.2⟩

theorem isDigit_ne_colon {c : Char} (h : c.isDigit = true) : c ≠ ':' := by
  rintro rfl
  exact absurd h (by decide)

theorem digitChar_digitValue {c : Char} (h : c.isDigit = true) :
    Nat.digitChar (digitValue c) = c := by
  obtain ⟨l, u⟩ := digit_range h
  rw [← Char.ofNat_toNat c]
  unfold digitValue
  generalize c.toNat = n at *
  interval_cases n <;> rfl

theorem digitValue_le {c : Char} (h : c.isDigit = true) : digitValue c ≤ 9 := by
  have h1 := digit_range h
  unfold digitValue; omega

theorem pad2_digits : ∀ d1, d1 < 10 → ∀ d2, d2 < 10 →
    pad2 (10 * d1 + d2) = String.mk [Nat.digitChar d1, Nat.digitChar d2] := by
  decide

theorem timeToMinutes_of_isHHMM {s : String} (h : isHHMM s = true) :
    timeToMinutes s = some (hhmmMinutes s) := by
  obtain ⟨l⟩ := s
  unfold isHHMM at h
  match l, h with
  | [h1, h2, c, m1, m2], h =>
    simp only [Bool.and_eq_true, beq_iff_eq] at h
    obtain ⟨⟨⟨⟨a1, a2⟩, rfl⟩, a3⟩, a4⟩ := h
    have l1 := digitValue_le a1
    have l2 := digitValue_le a2
    have l3 := digitValue_le a3
    have l4 := digitValue_le a4
    have small : ∀ n, n ≤ 6039 → toDouble n = n := fun n hn =>
      toDouble_of_lt (Nat.lt_of_le_of_lt hn (by decide))
    have t1 := small (10 * digitValue h1 + digitValue h2) (by omega)
    have t2 := small (10 * digitValue m1 + digitValue m2) (by omega)
    have t3 := small ((10 * digitValue h1 + digitValue h2) * 60) (by omega)
    have t4 := small ((10 * digitValue h1 + digitValue h2) * 60 +
      (10 * digitValue m1 + digitValue m2)) (by omega)
    simp [timeToMinutes, splitColon, isDigit_ne_colon, a1, a2, a3, a4, jsNumber, hhmmMinutes,
      hhmmHours, hhmmMins, t1, t2, t3, t4]

theorem minutesToTime_hhmmMinutes {s : String} (h : isHHMM s = true) (hm : hhmmMins s ≤ 59) :
    minutesToTime (some (hhmmMinutes s)) = s := by
  obtain ⟨l⟩ := s
  unfold isHHMM at h
  match l, h with
  | [h1, h2, c, m1, m2], h =>
    simp only [Bool.and_eq_true, beq_iff_eq] at h
    obtain ⟨⟨⟨⟨a1, a2⟩, rfl⟩, a3⟩, a4⟩ := h
    simp only [hhmmMins] at hm
    have e1 : floorQuotient (hhmmMinutes ⟨[h1, h2, ':', m1, m2]⟩) 60 =
        10 * digitValue h1 + digitValue h2 := by
      have l1 := digitValue_le a1
      have l2 := digitValue_le a2
      have hle : hhmmMinutes ⟨[h1, h2, ':', m1, m2]⟩ ≤ 6039 := by
        simp only [hhmmMinutes, hhmmHours, hhmmMins]; omega
      have hlt : hhmmMinutes ⟨[h1, h2, ':', m1, m2]⟩ < 2 ^ 53 :=
        Nat.lt_of_le_of_lt hle (by decide)
      rw [floorQuotient_sixty_of_lt hlt]
      simp only [hhmmMinutes, hhmmHours, hhmmMins]; omega
    have e2 : (hhmmMinutes ⟨[h1, h2, ':', m1, m2]⟩) % 60 = 10 * digitValue m1 + digitValue m2 := by
      simp only [hhmmMinutes, hhmmHours, hhmmMins]; omega
    simp only [minutesToTime, e1, e2]
    rw [pad2_digits _ (Nat.lt_succ_of_le (digitValue_le a1)) _ (Nat.lt_succ_of_le (digitValue_le a2)),
      pad2_digits _ (Nat.lt_succ_of_le (digitValue_le a3)) _ (Nat.lt_succ_of_le (digitValue_le a4)),
      digitChar_digitValue a1, digitChar_digitValue a2, digitChar_digitValue a3,
      digitChar_digitValue a4]
    rfl

theorem hhmmMinutes_lt {s : String} (h : isHHMM s = true) : hhmmMinutes s < 6040 := by
  obtain ⟨l⟩ := s
  unfold isHHMM at h
  match l, h with
  | [h1, h2, c, m1, m2], h =>
    simp only [Bool.and_eq_true, beq_iff_eq] at h
    obtain ⟨⟨⟨⟨a1, a2⟩, rfl⟩, a3⟩, a4⟩ := h
    have l1 := digitValue_le a1
    have l2 := digitValue_le a2
    have l3 := digitValue_le a3
    have l4 := digitValue_le a4
    simp only [hhmmMinutes, hhmmHours, hhmmMins]
    omega

/-! ## The loops of the detector in closed form -/

theorem suggestRoomAlternative_throws (self : ConflictDetector) (a b : ScheduleRecord) :
    self.suggestRoomAlternative a b = .error entriesError := rfl

theorem checkRoomConflictsFrom_eq (a : ScheduleRecord) (rest : List ScheduleRecord)
    (self : ConflictDetector) :
    checkRoomConflictsFrom a rest self =
      if rest.any (hasRoomConflict a) then (.error entriesError, self) else (.ok (), self) := by
  induction rest with
  | nil => rfl
  | cons b rest ih =>
    by_cases h : hasRoomConflict a b = true
    · simp [checkRoomConflictsFrom, h, suggestRoomAlternative_throws]
    · simp [checkRoomConflictsFrom, h, ih]

theorem checkRoomConflicts_eq (ws : List ScheduleRecord) (self : ConflictDetector) :
    checkRoomConflicts ws self =
      if anyRoomConflict ws then (.error entriesError, self) else (.ok (), self) := by
  induction ws with
  | nil => rfl
  | cons a rest ih =>
    by_cases h : rest.any (hasRoomConflict a) = true
    · simp [checkRoomConflicts, checkRoomConflictsFrom_eq, anyRoomConflict, h]
    · simp [checkRoomConflicts, checkRoomConflictsFrom_eq, anyRoomConflict, h, ih]

theorem checkFacultyConflictsFrom_eq (a : ScheduleRecord) (rest : List ScheduleRecord)
    (self : ConflictDetector) :
    checkFacultyConflictsFrom a rest self =
      { self with
        conflicts := self.conflicts ++
          (rest.filter (hasFacultyConflict a)).map (facultyConflict a) } := by
  induction rest generalizing self with
  | nil => simp [checkFacultyConflictsFrom]
  | cons b rest ih =>
    by_cases h : hasFacultyConflict a b = true
    · simp [checkFacultyConflictsFrom, h, ih]
    · simp [checkFacultyConflictsFrom, h, ih]

theorem checkFacultyConflicts_eq (ws : List ScheduleRecord) (self : ConflictDetector) :
    checkFacultyConflicts ws self =
      { self with conflicts := self.conflicts ++ facultyConflictsOf ws } := by
  induction ws generalizing self with
  | nil => simp [checkFacultyConflicts, facultyConflictsOf]
  | cons a rest ih =>
    simp [checkFacultyConflicts, facultyConflictsOf, checkFacultyConflictsFrom_eq, ih]

theorem checkCapacityViolations_eq (ws : List ScheduleRecord) (self : ConflictDetector) :
    checkCapacityViolations ws self =
      { self with conflicts := self.conflicts ++ ws.filterMap capacityViolationOf } := by
  induction ws generalizing self with
  | nil => simp [checkCapacityViolations]
  | cons a rest ih =>
    unfold checkCapacityViolations
    cases hr : getRoomDetails a.roomName with
    | none => simp [List.filterMap_cons, capacityViolationOf, hr, ih]
    | some room =>
      cases hm : a.maxStudents with
      | none => simp [List.filterMap_cons, capacityViolationOf, hr, hm, ih]
      | some m =>
        by_cases hc : m ≠ 0 ∧ m > room.capacity
        · simp only [List.filterMap_cons, capacityViolationOf, hr, hm, ih, if_pos hc,
            List.append_assoc, List.singleton_append]
        · simp only [List.filterMap_cons, capacityViolationOf, hr, hm, ih, if_neg hc]

theorem detectConflicts_eq (self : ConflictDetector) (newSchedule : Option ScheduleRecord) :
    self.detectConflicts newSchedule =
      if anyRoomConflict (self.schedulesToCheck newSchedule) then
        (.error entriesError, { self with conflicts := [] })
      else
        (.ok (reportedConflicts (self.schedulesToCheck newSchedule)),
          { self with conflicts := reportedConflicts (self.schedulesToCheck newSchedule) }) := by
  unfold detectConflicts
  simp only [checkRoomConflicts_eq]
  by_cases h : anyRoomConflict (self.schedulesToCheck newSchedule) = true
  · simp [h]
  · simp [h, checkFacultyConflicts_eq, checkCapacityViolations_eq, reportedConflicts]

/-! ## Symmetry of the pairwise predicates -/

theorem hasTimeOverlap_comm (a b : ScheduleRecord) : hasTimeOverlap a b = hasTimeOverlap b a := by
  simp only [hasTimeOverlap, Bool.and_comm]

theorem hasDayOverlap_iff (a b : ScheduleRecord) :
    hasDayOverlap a b = true ↔ ∃ day, day ∈ a.days.getD [] ∧ day ∈ b.days.getD [] := by
  simp [hasDayOverlap, List.any_eq_true]

theorem hasDayOverlap_comm (a b : ScheduleRecord) : hasDayOverlap a b = hasDayOverlap b a := by
  rw [Bool.eq_iff_iff, hasDayOverlap_iff, hasDayOverlap_iff]
  constructor <;> rintro ⟨d, h1, h2⟩ <;> exact ⟨d, h2, h1⟩

theorem hasRoomConflict_comm (a b : ScheduleRecord) :
    hasRoomConflict a b = hasRoomConflict b a := by
  unfold hasRoomConflict
  rw [hasTimeOverlap_comm a b, hasDayOverlap_comm a b]
  by_cases h1 : a.roomName = b.roomName <;> by_cases h2 : a.id = b.id <;>
    simp [h1, h2, eq_comm]

theorem hasFacultyConflict_comm (a b : ScheduleRecord) :
    hasFacultyConflict a b = hasFacultyConflict b a := by
  unfold hasFacultyConflict
  rw [hasTimeOverlap_comm a b, hasDayOverlap_comm a b]
  by_cases h1 : a.faculty = b.faculty <;> by_cases h2 : a.id = b.id <;>
    simp [h1, h2, eq_comm]

/-! ## Pairs of a list and permutations -/

theorem pair_sublist_cons {α : Type} (a b x : α) (l : List α) :
    List.Sublist [a, b] (x :: l) ↔ (a = x ∧ b ∈ l) ∨ List.Sublist [a, b] l := by
  rw [List.sublist_cons_iff]
  constructor
  · rintro (h | ⟨r, hr, hs⟩)
    · exact Or.inr h
    · injection hr with h1 h2
      subst h2
      exact Or.inl ⟨h1, List.singleton_sublist.mp hs⟩
  · rintro (⟨rfl, h⟩ | h)
    · exact Or.inr ⟨[b], rfl, List.singleton_sublist.mpr h⟩
    · exact Or.inl h

theorem perm_pair {α : Type} {a b : α} {l : List α} (h : List.Perm l [a, b]) :
    l = [a, b] ∨ l = [b, a] := by
  have hl : l.length = 2 := by simpa using h.length_eq
  obtain ⟨x, y, rfl⟩ := List.length_eq_two.mp hl
  have hx : x ∈ [a, b] := h.subset (List.mem_cons_self _ _)
  simp only [List.mem_cons, List.mem_singleton, List.not_mem_nil, or_false] at hx
  rcases hx with rfl | rfl
  · have := (List.perm_cons x).mp h
    rw [List.perm_singleton] at this
    injection this with h1 _
    exact Or.inl (by rw [h1])
  · have h2 : List.Perm [x, y] [x, a] := h.trans (List.Perm.swap _ _ _)
    have := (List.perm_cons x).mp h2
    rw [List.perm_singleton] at this
    injection this with h1 _
    exact Or.inr (by rw [h1])

theorem pair_sublist_perm {α : Type} {a b : α} {l l' : List α} (h : List.Sublist [a, b] l) (p : List.Perm l l') :
    List.Sublist [a, b] l' ∨ List.Sublist [b, a] l' := by
  obtain ⟨l0, h0, hs⟩ := (List.Perm.subperm_left p).mp h.subperm
  rcases perm_pair h0 with rfl | rfl
  · exact Or.inl hs
  · exact Or.inr hs

/-! ## What the closed forms contain -/

theorem anyRoomConflict_iff (ws : List ScheduleRecord) :
    anyRoomConflict ws = true ↔ ∃ a b, List.Sublist [a, b] ws ∧ hasRoomConflict a b = true := by
  induction ws with
  | nil => simp [anyRoomConflict]
  | cons x rest ih =>
    simp only [anyRoomConflict, Bool.or_eq_true, List.any_eq_true, ih, pair_sublist_cons]
    constructor
    · rintro (⟨b, hb, h⟩ | ⟨a, b, hs, h⟩)
      · exact ⟨x, b, Or.inl ⟨rfl, hb⟩, h⟩
      · exact ⟨a, b, Or.inr hs, h⟩
    · rintro ⟨a, b, (⟨rfl, hb⟩ | hs), h⟩
      · exact Or.inl ⟨b, hb, h⟩
      · exact Or.inr ⟨a, b, hs, h⟩

theorem anyRoomConflict_perm {l l' : List ScheduleRecord} (p : List.Perm l l') :
    anyRoomConflict l = anyRoomConflict l' := by
  rw [Bool.eq_iff_iff, anyRoomConflict_iff, anyRoomConflict_iff]
  constructor
  · rintro ⟨a, b, hs, h⟩
    rcases pair_sublist_perm hs p with h' | h'
    · exact ⟨a, b, h', h⟩
    · exact ⟨b, a, h', by rw [hasRoomConflict_comm]; exact h⟩
  · rintro ⟨a, b, hs, h⟩
    rcases pair_sublist_perm hs p.symm with h' | h'
    · exact ⟨a, b, h', h⟩
    · exact ⟨b, a, h', by rw [hasRoomConflict_comm]; exact h⟩

theorem mem_facultyConflictsOf (ws : List ScheduleRecord) (c : Conflict) :
    c ∈ facultyConflictsOf ws ↔
      ∃ a b, List.Sublist [a, b] ws ∧ hasFacultyConflict a b = true ∧ c = facultyConflict a b := by
  induction ws with
  | nil => simp [facultyConflictsOf]
  | cons x rest ih =>
    simp only [facultyConflictsOf, List.mem_append, List.mem_map, List.mem_filter, ih,
      pair_sublist_cons]
    constructor
    · rintro (⟨b, ⟨hb, h⟩, rfl⟩ | ⟨a, b, hs, h, rfl⟩)
      · exact ⟨x, b, Or.inl ⟨rfl, hb⟩, h, rfl⟩
      · exact ⟨a, b, Or.inr hs, h, rfl⟩
    · rintro ⟨a, b, (⟨rfl, hb⟩ | hs), h, rfl⟩
      · exact Or.inl ⟨b, ⟨hb, h⟩, rfl⟩
      · exact Or.inr ⟨a, b, hs, h, rfl⟩

theorem mem_capacityViolations (ws : List ScheduleRecord) (c : Conflict) :
    c ∈ ws.filterMap capacityViolationOf ↔
      ∃ r ∈ ws, ∃ room m, getRoomDetails r.roomName = some room ∧ r.maxStudents = some m ∧
        m ≠ 0 ∧ room.capacity < m ∧ c = capacityViolation r m room := by
  simp only [List.mem_filterMap]
  constructor
  · rintro ⟨r, hr, h⟩
    refine ⟨r, hr, ?_⟩
    unfold capacityViolationOf at h
    cases hroom : getRoomDetails r.roomName with
    | none => simp [hroom] at h
    | some room =>
      cases hm : r.maxStudents with
      | none => simp [hroom, hm] at h
      | some m =>
        simp only [hroom, hm] at h
        split at h
        · rename_i hc
          exact ⟨room, m, rfl, rfl, hc.1, hc.2, (Option.some.inj h).symm⟩
        · cases h
  · rintro ⟨r, hr, room, m, hroom, hm, h0, hc, rfl⟩
    exact ⟨r, hr, by simp [capacityViolationOf, hroom, hm, h0, hc]⟩

/-! ## Reported conflicts under a permutation of the working set -/

theorem conflictKey_facultyConflict_swap (a b : ScheduleRecord) :
    conflictKey (facultyConflict b a) = conflictKey (facultyConflict a b) := by
  simp only [conflictKey, facultyConflict, Prod.mk.injEq, true_and]
  ext s
  simp [or_comm]

theorem reportedConflicts_key_perm {l l' : List ScheduleRecord} (p : List.Perm l l')
    {c : Conflict} (hc : c ∈ reportedConflicts l) :
    ∃ c' ∈ reportedConflicts l', conflictKey c' = conflictKey c := by
  rcases List.mem_append.mp hc with h | h
  · obtain ⟨a, b, hs, hf, rfl⟩ := (mem_facultyConflictsOf l c).mp h
    rcases pair_sublist_perm hs p with h' | h'
    · exact ⟨facultyConflict a b,
        List.mem_append_left _ ((mem_facultyConflictsOf l' _).mpr ⟨a, b, h', hf, rfl⟩), rfl⟩
    · have hf' : hasFacultyConflict b a = true := by rw [hasFacultyConflict_comm]; exact hf
      exact ⟨facultyConflict b a,
        List.mem_append_left _ ((mem_facultyConflictsOf l' _).mpr ⟨b, a, h', hf', rfl⟩),
        conflictKey_facultyConflict_swap a b⟩
  · obtain ⟨r, hr, rest⟩ := (mem_capacityViolations l c).mp h
    exact ⟨c, List.mem_append_right _
      ((mem_capacityViolations l' c).mpr ⟨r, (p.mem_iff).mp hr, rest⟩), rfl⟩

theorem conflictKeys_reportedConflicts_perm {l l' : List ScheduleRecord} (p : List.Perm l l') :
    conflictKeys (reportedConflicts l) = conflictKeys (reportedConflicts l') := by
  ext k
  simp only [conflictKeys, List.mem_toFinset, List.mem_map]
  constructor
  · rintro ⟨c, hc, rfl⟩
    obtain ⟨c', hc', hk⟩ := reportedConflicts_key_perm p hc
    exact ⟨c', hc', hk⟩
  · rintro ⟨c, hc, rfl⟩
    obtain ⟨c', hc', hk⟩ := reportedConflicts_key_perm p.symm hc
    exact ⟨c', hc', hk⟩

theorem schedulesToCheck_perm {l l' : List ScheduleRecord} (p : List.Perm l l')
    (stale stale' : List Conflict) (newSchedule : Option ScheduleRecord) :
    List.Perm (schedulesToCheck { schedules := l, conflicts := stale } newSchedule)
      (schedulesToCheck { schedules := l', conflicts := stale' } newSchedule) := by
  cases newSchedule with
  | none => exact p
  | some s => exact p.append_right [s]

/-! ## Consequences of the closed form -/

theorem isHHMM_of_isClockTime {s : String} (h : isClockTime s = true) :
    isHHMM s = true ∧ hhmmMins s ≤ 59 := by
  simp only [isClockTime, Bool.and_eq_true, decide_eq_true_eq] at h
  exact ⟨h.1.1, h.2⟩

theorem type_of_mem_facultyConflictsOf {ws : List ScheduleRecord} {c : Conflict}
    (h : c ∈ facultyConflictsOf ws) :
    ∃ a b, c = facultyConflict a b := by
  obtain ⟨a, b, _, _, rfl⟩ := (mem_facultyConflictsOf ws c).mp h
  exact ⟨a, b, rfl⟩

theorem ok_of_detectConflicts {self : ConflictDetector} {newSchedule : Option ScheduleRecord}
    {L : List Conflict} (h : (self.detectConflicts newSchedule).1 = .ok L) :
    anyRoomConflict (self.schedulesToCheck newSchedule) = false ∧
      L = reportedConflicts (self.schedulesToCheck newSchedule) := by
  rw [detectConflicts_eq] at h
  by_cases hc : anyRoomConflict (self.schedulesToCheck newSchedule) = true
  · simp [hc] at h
  · simp only [hc] at h
    simp only [Bool.false_eq_true, if_false] at h
    exact ⟨by simpa using hc, (Except.ok.inj h).symm⟩

/-! ## Warnings in closed form -/

theorem sharesDayStrict_of_days (s schedule : ScheduleRecord) (ds dc : List String)
    (hs : s.days = some ds) (hc : schedule.days = some dc) :
    sharesDayStrict s.days schedule.days = .ok (hasDayOverlap s schedule) := by
  rw [hs, hc]
  cases ds with
  | nil => simp [sharesDayStrict, hasDayOverlap, hs]
  | cons d more => simp [sharesDayStrict, hasDayOverlap, hs, hc]

theorem isBackToBack_of_days (schedule s : ScheduleRecord) (ds dc : List String)
    (hs : s.days = some ds) (hc : schedule.days = some dc) :
    isBackToBack schedule s = .ok (backToBackWith schedule s) := by
  unfold isBackToBack backToBackWith
  rw [sharesDayStrict_of_days s schedule ds dc hs hc]
  by_cases hf : s.faculty = schedule.faculty
  · cases hd : hasDayOverlap s schedule <;> simp [hf]
  · simp [hf]

theorem backToBackFilter_of_days (schedule : ScheduleRecord) (dc : List String)
    (hc : schedule.days = some dc) (l : List ScheduleRecord)
    (hl : ∀ s ∈ l, ∃ ds, s.days = some ds) :
    backToBackFilter schedule l = .ok (l.filter (backToBackWith schedule)) := by
  induction l with
  | nil => rfl
  | cons s rest ih =>
    obtain ⟨ds, hs⟩ := hl s (List.mem_cons_self _ _)
    have ih' := ih fun x hx => hl x (List.mem_cons_of_mem _ hx)
    simp only [backToBackFilter, isBackToBack_of_days schedule s ds dc hs hc, ih',
      List.filter_cons]

theorem generateWarnings_eq (self : ConflictDetector) (schedule : ScheduleRecord) :
    self.generateWarnings schedule =
      match backToBackFilter schedule self.schedules with
      | .error e => .error e
      | .ok backToBack => .ok (warningsFor schedule backToBack) := by
  unfold generateWarnings warningsFor
  cases backToBackFilter schedule self.schedules with
  | error e => rfl
  | ok kept =>
    simp only
    split_ifs <;> simp

theorem warnings_of_generateWarnings {self : ConflictDetector} {schedule : ScheduleRecord}
    {W : List Warning} (h : self.generateWarnings schedule = .ok W) :
    ∃ backToBack, backToBackFilter schedule self.schedules = .ok backToBack ∧
      W = warningsFor schedule backToBack := by
  rw [generateWarnings_eq] at h
  cases hk : backToBackFilter schedule self.schedules with
  | error e => simp [hk] at h
  | ok kept =>
    simp only [hk] at h
    exact ⟨kept, rfl, (Except.ok.inj h).symm⟩

theorem generateWarnings_of_days (self : ConflictDetector) (schedule : ScheduleRecord)
    (dc : List String) (hc : schedule.days = some dc)
    (hl : ∀ s ∈ self.schedules, ∃ ds, s.days = some ds) :
    self.generateWarnings schedule =
      .ok (warningsFor schedule (self.schedules.filter (backToBackWith schedule))) := by
  rw [generateWarnings_eq, backToBackFilter_of_days schedule dc hc _ hl]

theorem backToBack_mem_warningsFor (schedule : ScheduleRecord) (kept : List ScheduleRecord) :
    (∃ w ∈ warningsFor schedule kept, w.type = "back_to_back") ↔ kept ≠ [] := by
  unfold warningsFor
  cases kept with
  | nil =>
    simp only [List.length_nil, gt_iff_lt, lt_self_iff_false, if_false]
    split_ifs <;> simp [unusualHoursWarning, longDurationWarning]
  | cons a l => simp [backToBackWarning]

theorem unusualHours_mem_warningsFor (schedule : ScheduleRecord) (kept : List ScheduleRecord) :
    (∃ w ∈ warningsFor schedule kept, w.type = "unusual_hours") ↔
      (jsLt (timeToMinutes schedule.startTime) (some (7 * 60)) ||
        jsLt (some (18 * 60)) (timeToMinutes schedule.startTime)) = true := by
  unfold warningsFor
  split_ifs <;> simp_all [backToBackWarning, unusualHoursWarning, longDurationWarning]

theorem longDuration_mem_warningsFor (schedule : ScheduleRecord) (kept : List ScheduleRecord) :
    (∃ w ∈ warningsFor schedule kept, w.type = "long_duration") ↔
      jsGtConst (jsDiff (timeToMinutes schedule.endTime) (timeToMinutes schedule.startTime))
        180 = true := by
  unfold warningsFor
  split_ifs <;> simp_all [backToBackWarning, unusualHoursWarning, longDurationWarning]

theorem longDuration_iff_of_returns (self : ConflictDetector) (c : ScheduleRecord)
    (W : List Warning) (hs : isHHMM c.startTime = true) (he : isHHMM c.endTime = true)
    (hW : self.generateWarnings c = .ok W) :
    (∃ w ∈ W, w.type = "long_duration") ↔
      (180 : Int) < (hhmmMinutes c.endTime : Int) - (hhmmMinutes c.startTime : Int) := by
  obtain ⟨kept, _, rfl⟩ := warnings_of_generateWarnings hW
  rw [longDuration_mem_warningsFor, timeToMinutes_of_isHHMM hs, timeToMinutes_of_isHHMM he]
  have b1 := hhmmMinutes_lt hs
  have b2 := hhmmMinutes_lt he
  have t1 : toDouble (hhmmMinutes c.endTime - hhmmMinutes c.startTime) =
      hhmmMinutes c.endTime - hhmmMinutes c.startTime :=
    toDouble_of_lt (Nat.lt_of_le_of_lt (Nat.sub_le _ _) (Nat.lt_trans b2 (by decide)))
  have t2 : toDouble (hhmmMinutes c.startTime - hhmmMinutes c.endTime) =
      hhmmMinutes c.startTime - hhmmMinutes c.endTime :=
    toDouble_of_lt (Nat.lt_of_le_of_lt (Nat.sub_le _ _) (Nat.lt_trans b1 (by decide)))
  simp only [jsDiff, jsGtConst, t1, t2, decide_eq_true_eq]
  split_ifs with hle <;> omega

/-! ## Returned conflicts and their records -/

theorem jsNumEq_iff (x y : Option Nat) :
    jsNumEq x y = true ↔ ∃ m, x = some m ∧ y = some m := by
  cases x <;> cases y <;> simp [jsNumEq, eq_comm]

theorem schedules_of_reported {ws : List ScheduleRecord} {c : Conflict}
    (h : c ∈ reportedConflicts ws) :
    (∃ a b, List.Sublist [a, b] ws ∧ hasFacultyConflict a b = true ∧
        c = facultyConflict a b) ∨
      (∃ r ∈ ws, capacityViolationOf r = some c ∧ c.schedules = [r]) := by
  rcases List.mem_append.mp h with h | h
  · exact Or.inl ((mem_facultyConflictsOf ws c).mp h)
  · obtain ⟨r, hr, room, m, hroom, hm, h0, hcap, rfl⟩ := (mem_capacityViolations ws c).mp h
    exact Or.inr ⟨r, hr, by simp [capacityViolationOf, hroom, hm, h0, hcap], rfl⟩

theorem ids_of_hasFacultyConflict {a b : ScheduleRecord} (h : hasFacultyConflict a b = true) :
    a.id ≠ b.id := by
  intro hid
  simp [hasFacultyConflict, hid] at h

theorem detectConflicts_schedules (self : ConflictDetector)
    (newSchedule : Option ScheduleRecord) :
    (self.detectConflicts newSchedule).2.schedules = self.schedules := by
  rw [detectConflicts_eq]
  split_ifs <;> rfl

theorem detectConflicts_fst_congr (self self' : ConflictDetector)
    (newSchedule : Option ScheduleRecord) (h : self.schedules = self'.schedules) :
    (self.detectConflicts newSchedule).1 = (self'.detectConflicts newSchedule).1 := by
  obtain ⟨l, cs⟩ := self
  obtain ⟨l', cs'⟩ := self'
  simp only at h
  subst h
  rw [detectConflicts_eq, detectConflicts_eq]
  rfl

/-! ## Validation in closed form -/

theorem generateWarnings_congr (self self' : ConflictDetector) (schedule : ScheduleRecord)
    (h : self.schedules = self'.schedules) :
    self.generateWarnings schedule = self'.generateWarnings schedule := by
  rw [generateWarnings_eq, generateWarnings_eq, h]

theorem validateSchedule_eq (self : ConflictDetector) (newSchedule : ScheduleRecord) :
    (self.validateSchedule newSchedule).1 =
      match (self.detectConflicts (some newSchedule)).1 with
      | .error e => .error e
      | .ok D =>
        match self.generateWarnings newSchedule with
        | .error e => .error e
        | .ok W =>
          .ok { isValid := (D.filter (involvesSchedule newSchedule)).length == 0
                conflicts := D.filter (involvesSchedule newSchedule)
                warnings := W } := by
  have hw := generateWarnings_congr (self.detectConflicts (some newSchedule)).2 self newSchedule
    (detectConflicts_schedules self (some newSchedule))
  unfold validateSchedule
  rcases hd : self.detectConflicts (some newSchedule) with ⟨r, self'⟩
  rw [hd] at hw
  simp only at hw
  cases r with
  | error e => rfl
  | ok D =>
    simp only [hw]
    cases self.generateWarnings newSchedule <;> rfl

theorem validateSchedule_schedules (self : ConflictDetector) (newSchedule : ScheduleRecord) :
    (self.validateSchedule newSchedule).2.schedules = self.schedules := by
  have hs := detectConflicts_schedules self (some newSchedule)
  unfold validateSchedule
  rcases hd : self.detectConflicts (some newSchedule) with ⟨r, self'⟩
  rw [hd] at hs
  simp only at hs
  cases r with
  | error e => exact hs
  | ok D =>
    simp only
    cases self'.generateWarnings newSchedule <;> exact hs

theorem anyRoomConflict_append_singleton (l : List ScheduleRecord) (c : ScheduleRecord) :
    anyRoomConflict (l ++ [c]) =
      (anyRoomConflict l || l.any fun s => hasRoomConflict s c) := by
  induction l with
  | nil => simp [anyRoomConflict]
  | cons a rest ih =>
    have e1 : anyRoomConflict (a :: rest ++ [c]) =
        ((rest ++ [c]).any (hasRoomConflict a) || anyRoomConflict (rest ++ [c])) := rfl
    have e2 : anyRoomConflict (a :: rest) =
        (rest.any (hasRoomConflict a) || anyRoomConflict rest) := rfl
    rw [e1, e2, ih, List.any_append]
    simp only [List.any_cons, List.any_nil, Bool.or_false]
    generalize rest.any (hasRoomConflict a) = p
    generalize anyRoomConflict rest = q
    generalize hasRoomConflict a c = r
    generalize (rest.any fun s => hasRoomConflict s c) = t
    cases p <;> cases q <;> cases r <;> cases t <;> rfl

theorem not_involved_of_uninvolved (l : List ScheduleRecord) (c : ScheduleRecord)
    (hfac : ∀ s ∈ l, hasFacultyConflict s c = false)
    (hcap : capacityViolationOf c = none)
    (hfb : ∀ s ∈ l, ¬ (s.subjectCode = c.subjectCode ∧ s.startTime = c.startTime))
    {k : Conflict} (hk : k ∈ reportedConflicts (l ++ [c])) :
    involvesSchedule c k = false := by
  have hself : hasFacultyConflict c c = false := by simp [hasFacultyConflict]
  have partner : ∀ s t, s ∈ l ++ [c] → t ∈ l ++ [c] →
      (hasFacultyConflict s t = true ∨ hasFacultyConflict t s = true) → s ≠ c := by
    rintro s t _ ht h rfl
    have h' : hasFacultyConflict t s = true := by
      rcases h with h | h
      · rw [hasFacultyConflict_comm]; exact h
      · exact h
    rcases List.mem_append.mp ht with ht | ht
    · rw [hfac t ht] at h'; cases h'
    · rw [List.mem_singleton.mp ht, hself] at h'; cases h'
  have clean : ∀ s, s ∈ l ++ [c] → s ≠ c →
      (decide (s = c) || (decide (s.subjectCode = c.subjectCode) &&
        decide (s.startTime = c.startTime))) = false := by
    intro s hs hne
    have hl : s ∈ l := by
      rcases List.mem_append.mp hs with h | h
      · exact h
      · exact absurd (List.mem_singleton.mp h) hne
    have := hfb s hl
    simp only [Bool.or_eq_false_iff, decide_eq_false_iff_not, Bool.and_eq_false_imp,
      decide_eq_true_eq]
    exact ⟨hne, fun h1 h2 => this ⟨h1, h2⟩⟩
  unfold involvesSchedule
  rcases schedules_of_reported hk with ⟨x, y, hs, hf, rfl⟩ | ⟨r, hr, hcv, hrs⟩
  · have hx : x ∈ l ++ [c] := hs.subset (List.mem_cons_self _ _)
    have hy : y ∈ l ++ [c] := hs.subset (List.mem_cons_of_mem _ (List.mem_singleton.mpr rfl))
    simp only [facultyConflict, List.any_cons, List.any_nil, Bool.or_false]
    rw [clean x hx (partner x y hx hy (Or.inl hf)), clean y hy (partner y x hy hx (Or.inr hf))]
    rfl
  · have hne : r ≠ c := by
      rintro rfl
      rw [hcap] at hcv
      cases hcv
    rw [hrs]
    simp only [List.any_cons, List.any_nil, Bool.or_false]
    exact clean r hr hne

/-! ## The schedule set across the operations -/

theorem findAlternativeRoomLoop_schedules (schedule : ScheduleRecord) (options : List String)
    (self : ConflictDetector) :
    (findAlternativeRoomLoop schedule options self).2.schedules = self.schedules := by
  induction options generalizing self with
  | nil => rfl
  | cons roomName rest ih =>
    have hv := validateSchedule_schedules self { schedule with roomName := some roomName }
    have step : findAlternativeRoomLoop schedule (roomName :: rest) self =
        match self.validateSchedule { schedule with roomName := some roomName } with
        | (.error e, self) => (.error e, self)
        | (.ok validation, self) =>
          if validation.isValid then (.ok (some roomName), self)
          else findAlternativeRoomLoop schedule rest self := rfl
    rw [step]
    generalize self.validateSchedule { schedule with roomName := some roomName } = res at hv
    obtain ⟨r, self'⟩ := res
    simp only at hv
    cases r with
    | error e => exact hv
    | ok validation =>
      simp only
      split_ifs
      · exact hv
      · rw [ih self', hv]

theorem findAlternativeRoom_schedules (self : ConflictDetector) (schedule : ScheduleRecord) :
    (self.findAlternativeRoom schedule).2.schedules = self.schedules := by
  unfold findAlternativeRoom
  cases getRoomDetails none with
  | none => rfl
  | some directory => exact findAlternativeRoomLoop_schedules _ _ _

theorem autoResolveLoop_schedules (conflicts : List Conflict) (resolutions : List Resolution)
    (self : ConflictDetector) :
    (autoResolveLoop conflicts resolutions self).2.schedules = self.schedules := by
  induction conflicts generalizing resolutions self with
  | nil => rfl
  | cons conflict rest ih =>
    unfold autoResolveLoop
    split_ifs with ht
    · cases hs : conflict.schedules with
      | nil => rfl
      | cons schedule more =>
        have hf := findAlternativeRoom_schedules self schedule
        simp only
        generalize self.findAlternativeRoom schedule = res at hf
        obtain ⟨r, self'⟩ := res
        simp only at hf
        cases r with
        | error e => exact hf
        | ok alternative =>
          cases alternative with
          | none => simp only; rw [ih, hf]
          | some newRoom =>
            simp only
            split_ifs
            · rw [ih, hf]
            · rw [ih, hf]
    · exact ih _ _

/-! ## Pairs reported by the detector -/

theorem pair_of_reported {ws : List ScheduleRecord} {c : Conflict} {x y : ScheduleRecord}
    (hc : c ∈ reportedConflicts ws) (hs : c.schedules = [x, y]) :
    List.Sublist [x, y] ws ∧ hasFacultyConflict x y = true ∧ c = facultyConflict x y := by
  rcases schedules_of_reported hc with ⟨a, b, hsub, hf, rfl⟩ | ⟨r, _, _, hr⟩
  · simp only [facultyConflict, List.cons.injEq, and_true] at hs
    obtain ⟨rfl, rfl⟩ := hs
    exact ⟨hsub, hf, rfl⟩
  · rw [hr] at hs
    simp at hs

theorem type_of_reported {ws : List ScheduleRecord} {c : Conflict}
    (hc : c ∈ reportedConflicts ws) :
    (c.type = "faculty_conflict" ∧ c.severity = "high" ∧ ∃ x y, c.schedules = [x, y]) ∨
      (c.type = "capacity_violation" ∧ c.severity = "medium" ∧ ∃ r, c.schedules = [r]) := by
  rcases List.mem_append.mp hc with h | h
  · obtain ⟨a, b, _, _, rfl⟩ := (mem_facultyConflictsOf ws c).mp h
    exact Or.inl ⟨rfl, rfl, a, b, rfl⟩
  · obtain ⟨r, _, room, m, _, _, _, _, rfl⟩ := (mem_capacityViolations ws c).mp h
    exact Or.inr ⟨rfl, rfl, r, rfl⟩

theorem days_of_hasDayOverlap {a b : ScheduleRecord} (h : hasDayOverlap a b = true) :
    a.days ≠ none ∧ b.days ≠ none := by
  obtain ⟨day, h1, h2⟩ := (hasDayOverlap_iff a b).mp h
  constructor
  · intro hn
    rw [hn] at h1
    simp at h1
  · intro hn
    rw [hn] at h2
    simp at h2

theorem overlaps_of_hasFacultyConflict {a b : ScheduleRecord}
    (h : hasFacultyConflict a b = true) :
    a.faculty = b.faculty ∧ hasTimeOverlap a b = true ∧ hasDayOverlap a b = true := by
  unfold hasFacultyConflict at h
  by_cases h1 : a.faculty = b.faculty
  · by_cases h2 : a.id = b.id
    · simp [h1, h2] at h
    · simp only [h1, h2, ne_eq, not_true_eq_false, if_false, Bool.and_eq_true] at h
      exact ⟨h1, h.1, h.2⟩
  · simp [h1] at h

theorem pair_sublist_iff_positions {α : Type} (a b : α) (l : List α) :
    List.Sublist [a, b] l ↔ ∃ i j : Nat, i < j ∧ l[i]? = some a ∧ l[j]? = some b := by
  induction l with
  | nil => simp
  | cons x rest ih =>
    rw [pair_sublist_cons, ih]
    constructor
    · rintro (⟨rfl, hb⟩ | ⟨i, j, hij, hi, hj⟩)
      · obtain ⟨j, hj⟩ := List.mem_iff_getElem?.mp hb
        exact ⟨0, j + 1, Nat.succ_pos j, by simp, by simpa using hj⟩
      · exact ⟨i + 1, j + 1, Nat.succ_lt_succ hij, by simpa using hi, by simpa using hj⟩
    · rintro ⟨i, j, hij, hi, hj⟩
      cases j with
      | zero => exact absurd hij (Nat.not_lt_zero _)
      | succ j =>
        have hj' : rest[j]? = some b := by simpa using hj
        cases i with
        | zero =>
          have hi' : x = a := by simpa using hi
          exact Or.inl ⟨hi'.symm, List.mem_iff_getElem?.mpr ⟨j, hj'⟩⟩
        | succ i =>
          have hi' : rest[i]? = some a := by simpa using hi
          exact Or.inr ⟨i, j, Nat.lt_of_succ_lt_succ hij, hi', hj'⟩

/-! ## The summary in closed form -/

theorem lookup_countType (m : List (String × Nat)) (t t' : String) :
    (countType m t).lookup t' =
      if t' = t then some ((m.lookup t).getD 0 + 1) else m.lookup t' := by
  induction m with
  | nil =>
    by_cases h : t' = t
    · subst h
      simp [countType]
    · have hb : (t' == t) = false := by simpa using h
      simp [countType, List.lookup_cons, hb, h]
  | cons e rest ih =>
    obtain ⟨k, n⟩ := e
    by_cases hk : k = t
    · subst hk
      by_cases h : t' = k
      · subst h
        simp [countType]
      · have hb : (t' == k) = false := by simpa using h
        simp [countType, List.lookup_cons, hb, h]
    · have hk' : (t == k) = false := by simpa using fun e : t = k => hk e.symm
      by_cases h : t' = t
      · subst h
        simp [countType, List.lookup_cons, hk, hk', ih]
      · by_cases h2 : t' = k
        · subst h2
          simp [countType, hk, h]
        · have hb : (t' == k) = false := by simpa using h2
          simp [countType, List.lookup_cons, hk, h, hb, ih]

theorem sum_countType (m : List (String × Nat)) (t : String) :
    ((countType m t).map Prod.snd).sum = (m.map Prod.snd).sum + 1 := by
  induction m with
  | nil => simp [countType]
  | cons e rest ih =>
    obtain ⟨k, n⟩ := e
    by_cases hk : k = t
    · simp [countType, hk]; omega
    · simp [countType, hk, ih]; omega

theorem keys_countType (m : List (String × Nat)) (t : String) :
    (countType m t).map Prod.fst =
      if t ∈ m.map Prod.fst then m.map Prod.fst else m.map Prod.fst ++ [t] := by
  induction m with
  | nil => simp [countType]
  | cons e rest ih =>
    obtain ⟨k, n⟩ := e
    by_cases hk : k = t
    · simp [countType, hk]
    · have hk' : ¬ t = k := fun e => hk e.symm
      simp only [countType, hk, if_false, List.map_cons, ih, List.mem_cons, hk', false_or]
      split_ifs <;> simp

theorem nodup_keys_countType (m : List (String × Nat)) (t : String)
    (h : (m.map Prod.fst).Nodup) : ((countType m t).map Prod.fst).Nodup := by
  rw [keys_countType]
  split_ifs with ht
  · exact h
  · exact List.Nodup.append h (List.nodup_singleton t) (by simpa using ht)

theorem byType_fold (C : List Conflict) (m : List (String × Nat)) (t : String) :
    (C.foldl (fun byType conflict => countType byType conflict.type) m).lookup t =
      if C.countP (fun c => decide (c.type = t)) = 0 then m.lookup t
      else some ((m.lookup t).getD 0 + C.countP (fun c => decide (c.type = t))) := by
  induction C generalizing m with
  | nil => simp
  | cons c rest ih =>
    simp only [List.foldl_cons, ih, lookup_countType, List.countP_cons]
    by_cases h : t = c.type
    · subst h
      by_cases h0 : rest.countP (fun x => decide (x.type = c.type)) = 0
      · simp [h0]
      · simp [h0]; omega
    · have h' : ¬ c.type = t := fun e => h e.symm
      simp [h, h']

theorem byType_fold_sum (C : List Conflict) (m : List (String × Nat)) :
    ((C.foldl (fun byType conflict => countType byType conflict.type) m).map Prod.snd).sum =
      (m.map Prod.snd).sum + C.length := by
  induction C generalizing m with
  | nil => simp
  | cons c rest ih =>
    simp only [List.foldl_cons, ih, sum_countType, List.length_cons]
    omega

theorem byType_fold_nodup (C : List Conflict) (m : List (String × Nat))
    (h : (m.map Prod.fst).Nodup) :
    ((C.foldl (fun byType conflict => countType byType conflict.type) m).map Prod.fst).Nodup := by
  induction C generalizing m with
  | nil => exact h
  | cons c rest ih => exact ih _ (nodup_keys_countType m c.type h)

theorem severity_counts (C : List Conflict)
    (h : ∀ c ∈ C, c.severity = "high" ∨ c.severity = "medium") :
    (C.filter fun c => decide (c.severity = "low")).length = 0 ∧
      (C.filter fun c => decide (c.severity = "high")).length +
        (C.filter fun c => decide (c.severity = "medium")).length = C.length := by
  induction C with
  | nil => simp
  | cons c rest ih =>
    obtain ⟨ih1, ih2⟩ := ih fun x hx => h x (List.mem_cons_of_mem _ hx)
    rw [List.length_eq_zero] at ih1
    rcases h c (List.mem_cons_self _ _) with hc | hc
    · simp only [List.filter_cons, hc, List.length_cons, ih1]
      simp only [show ("high" = "low") = False from by decide,
        show ("high" = "medium") = False from by decide, decide_True, decide_False, if_true,
        List.length_cons, List.length_nil]
      simp only [Bool.false_eq_true, if_false, List.length_nil, true_and]
      omega
    · simp only [List.filter_cons, hc, List.length_cons, ih1]
      simp only [show ("medium" = "low") = False from by decide,
        show ("medium" = "high") = False from by decide, decide_True, decide_False, if_true,
        List.length_cons, List.length_nil]
      simp only [Bool.false_eq_true, if_false, List.length_nil, true_and]
      omega

theorem detectConflicts_conflicts (self : ConflictDetector)
    (newSchedule : Option ScheduleRecord) :
    (self.detectConflicts newSchedule).2.conflicts = [] ∨
      (self.detectConflicts newSchedule).2.conflicts =
        reportedConflicts (self.schedulesToCheck newSchedule) := by
  rw [detectConflicts_eq]
  split_ifs
  · exact Or.inl rfl
  · exact Or.inr rfl

/-! ## Printing and reading numbers -/

theorem isDigit_digitChar {k : Nat} (h : k < 10) : (Nat.digitChar k).isDigit = true := by
  interval_cases k <;> rfl

theorem digitValue_digitChar {k : Nat} (h : k < 10) : digitValue (Nat.digitChar k) = k := by
  interval_cases k <;> rfl

theorem toDigitsCore_isDigit (fuel : Nat) :
    ∀ (n : Nat) (ds : List Char), (∀ c ∈ ds, c.isDigit = true) →
      ∀ c ∈ Nat.toDigitsCore 10 fuel n ds, c.isDigit = true := by
  induction fuel with
  | zero => intro n ds hds; simpa [Nat.toDigitsCore] using hds
  | succ fuel ih =>
    intro n ds hds
    have hd : (Nat.digitChar (n % 10)).isDigit = true :=
      isDigit_digitChar (Nat.mod_lt _ (by decide))
    have hds' : ∀ c ∈ Nat.digitChar (n % 10) :: ds, c.isDigit = true := by
      intro c hc
      rcases List.mem_cons.mp hc with rfl | hc
      · exact hd
      · exact hds c hc
    simp only [Nat.toDigitsCore]
    split_ifs
    · exact hds'
    · exact ih _ _ hds'

theorem toDigitsCore_value (fuel : Nat) :
    ∀ (n : Nat) (ds : List Char), n < fuel →
      (Nat.toDigitsCore 10 fuel n ds).foldl (fun a c => 10 * a + digitValue c) 0 =
        ds.foldl (fun a c => 10 * a + digitValue c) n := by
  induction fuel with
  | zero => intro n ds h; exact absurd h (Nat.not_lt_zero _)
  | succ fuel ih =>
    intro n ds h
    have hv : digitValue (Nat.digitChar (n % 10)) = n % 10 :=
      digitValue_digitChar (Nat.mod_lt _ (by decide))
    simp only [Nat.toDigitsCore]
    split_ifs with h0
    · have hn : n % 10 = n := by omega
      simp only [List.foldl_cons, Nat.mul_zero, Nat.zero_add, hv]
      rw [hn]
    · rw [ih (n / 10) _ (by omega)]
      simp only [List.foldl_cons, hv]
      congr 1
      omega

theorem jsNumber_toString (n : Nat) : jsNumber (toString n).data = some (toDouble n) := by
  have hdata : (toString n).data = Nat.toDigitsCore 10 (n + 1) n [] := rfl
  have hall : (Nat.toDigitsCore 10 (n + 1) n []).all Char.isDigit = true := by
    rw [List.all_eq_true]
    exact toDigitsCore_isDigit _ _ _ (by simp)
  rw [hdata, jsNumber, if_pos hall, toDigitsCore_value _ _ _ (Nat.lt_succ_self n)]
  rfl

theorem isDigit_toString (n : Nat) : ∀ c ∈ (toString n).data, c.isDigit = true :=
  toDigitsCore_isDigit _ _ _ (by simp)

theorem pad2_data (n : Nat) :
    (pad2 n).data = (toString n).data ∨ (pad2 n).data = '0' :: (toString n).data := by
  unfold pad2
  simp only
  split_ifs
  · exact Or.inr rfl
  · exact Or.inl rfl

theorem isDigit_pad2 (n : Nat) : ∀ c ∈ (pad2 n).data, c.isDigit = true := by
  intro c hc
  rcases pad2_data n with h | h
  · rw [h] at hc
    exact isDigit_toString n c hc
  · rw [h] at hc
    rcases List.mem_cons.mp hc with rfl | hc
    · rfl
    · exact isDigit_toString n c hc

theorem jsNumber_pad2 (n : Nat) : jsNumber (pad2 n).data = some (toDouble n) := by
  rcases pad2_data n with h | h
  · rw [h]
    exact jsNumber_toString n
  · have hn := jsNumber_toString n
    have hall : ((toString n).data).all Char.isDigit = true := by
      rw [List.all_eq_true]
      exact isDigit_toString n
    rw [jsNumber, if_pos hall] at hn
    have hall' : ('0' :: (toString n).data).all Char.isDigit = true := by
      rw [List.all_cons, hall]
      rfl
    rw [h, jsNumber, if_pos hall']
    simpa [digitValue] using hn

theorem splitColon_of_no_colon (cs : List Char) (h : ∀ c ∈ cs, c ≠ ':') :
    splitColon cs = [cs] := by
  induction cs with
  | nil => rfl
  | cons c rest ih =>
    have hc : c ≠ ':' := h c (List.mem_cons_self _ _)
    simp [splitColon, hc, ih fun x hx => h x (List.mem_cons_of_mem _ hx)]

theorem splitColon_append_colon (xs ys : List Char) (h : ∀ c ∈ xs, c ≠ ':') :
    splitColon (xs ++ ':' :: ys) = xs :: splitColon ys := by
  induction xs with
  | nil => simp [splitColon]
  | cons c rest ih =>
    have hc : c ≠ ':' := h c (List.mem_cons_self _ _)
    simp [splitColon, hc, ih fun x hx => h x (List.mem_cons_of_mem _ hx)]

theorem timeToMinutes_minutesToTime_eq (m : Nat) :
    timeToMinutes (minutesToTime (some m)) =
      some (toDouble (toDouble (toDouble (floorQuotient m 60) * 60) + toDouble (m % 60))) := by
  have hdata : (minutesToTime (some m)).data =
      (pad2 (floorQuotient m 60)).data ++ ':' :: (pad2 (m % 60)).data := by
    simp [minutesToTime, String.data_append]
  have h1 : ∀ c ∈ (pad2 (floorQuotient m 60)).data, c ≠ ':' :=
    fun c hc => isDigit_ne_colon (isDigit_pad2 _ c hc)
  have h2 : ∀ c ∈ (pad2 (m % 60)).data, c ≠ ':' :=
    fun c hc => isDigit_ne_colon (isDigit_pad2 _ c hc)
  unfold timeToMinutes
  rw [hdata, splitColon_append_colon _ _ h1, splitColon_of_no_colon _ h2]
  simp only [List.map_cons, List.map_nil, jsNumber_pad2]

theorem timeToMinutes_minutesToTime {m : Nat} (h : m < 2 ^ 53) :
    timeToMinutes (minutesToTime (some m)) = some m := by
  have hq : m / 60 < 2 ^ 53 := Nat.lt_of_le_of_lt (Nat.div_le_self _ _) h
  have hr : m % 60 < 2 ^ 53 := Nat.lt_of_le_of_lt (Nat.mod_le _ _) h
  have hp : m / 60 * 60 < 2 ^ 53 := Nat.lt_of_le_of_lt (Nat.div_mul_le_self _ _) h
  have hs : m / 60 * 60 + m % 60 = m := Nat.div_add_mod' m 60
  rw [timeToMinutes_minutesToTime_eq, floorQuotient_sixty_of_lt h, toDouble_of_lt hq,
    toDouble_of_lt hp, toDouble_of_lt hr, hs, toDouble_of_lt h]

/-! ## The order of time strings -/

theorem char_lt_iff (a b : Char) : a < b ↔ a.toNat < b.toNat := Iff.rfl

theorem digitValue_lt_of_lt {a b : Char} (ha : a.isDigit = true) (hb : b.isDigit = true)
    (h : a < b) : digitValue a < digitValue b := by
  have ra := digit_range ha
  have rb := digit_range hb
  rw [char_lt_iff] at h
  unfold digitValue
  omega

/-! ## The claims -/

/-- C1: on the two records of scenario 1 (distinct ids, the same room `A101`, the
shared days Monday and Wednesday, 09:00-10:00 against 09:30-10:30)
`detectConflicts` does not return a list holding one `room_conflict`: building
the conflict calls `suggestRoomAlternative`, which throws a `TypeError`. -/
theorem detectConflicts_scenario1_throws :
    scenarioX.id ≠ scenarioY.id ∧ scenarioX.roomName = scenarioY.roomName ∧
      hasDayOverlap scenarioX scenarioY = true ∧ hasTimeOverlap scenarioX scenarioY = true ∧
      (detectConflicts { schedules := [scenarioX, scenarioY] } none).1 =
        .error (.typeError "Cannot convert undefined or null to object") :=
  ⟨by decide, rfl, rfl, rfl, rfl⟩

/-- C2: `detectConflicts` is not total on well-formed input: with the well-formed
record X held by the detector and the well-formed candidate Y (both with `HH:MM`
times and lists of day names) the call throws a `TypeError`. -/
theorem detectConflicts_candidate_throws :
    isHHMM scenarioX.startTime = true ∧ isHHMM scenarioX.endTime = true ∧
      isHHMM scenarioY.startTime = true ∧ isHHMM scenarioY.endTime = true ∧
      scenarioX.days = some ["Monday", "Wednesday"] ∧
      scenarioY.days = some ["Monday", "Wednesday"] ∧
      (detectConflicts { schedules := [scenarioX] } (some scenarioY)).1 =
        .error (.typeError "Cannot convert undefined or null to object") :=
  ⟨rfl, rfl, rfl, rfl, rfl, rfl, rfl⟩

/-- C3: `hasRoomConflict a b` holds exactly when the room names are equal, the
ids differ, the times overlap and the days overlap; and `hasDayOverlap a b`
holds exactly when some day name occurs in both `days` lists. -/
theorem hasRoomConflict_iff (a b : ScheduleRecord) :
    (hasRoomConflict a b = true ↔
      a.roomName = b.roomName ∧ a.id ≠ b.id ∧ hasTimeOverlap a b = true ∧
        hasDayOverlap a b = true) ∧
    (hasDayOverlap a b = true ↔
      ∃ days1 days2 day, a.days = some days1 ∧ b.days = some days2 ∧
        day ∈ days1 ∧ day ∈ days2) := by
  constructor
  · unfold hasRoomConflict
    by_cases h1 : a.roomName = b.roomName <;> by_cases h2 : a.id = b.id <;> simp [h1, h2]
  · rw [hasDayOverlap_iff]
    constructor
    · rintro ⟨day, h1, h2⟩
      cases ha : a.days with
      | none => simp [ha] at h1
      | some days1 =>
        cases hb : b.days with
        | none => simp [hb] at h2
        | some days2 =>
          exact ⟨days1, days2, day, rfl, rfl, by simpa [ha] using h1, by simpa [hb] using h2⟩
    · rintro ⟨days1, days2, day, ha, hb, h1, h2⟩
      exact ⟨day, by simpa [ha] using h1, by simpa [hb] using h2⟩

/-- C4: for records with `HH:MM` times, `timeToMinutes` reads each time as
`60 * HH + MM`, and with `s1, e1, s2, e2` those minutes `hasTimeOverlap a b` holds
exactly when `s1 < e2` and `s2 < e1`; back-to-back ranges (`e1 = s2`) do not
overlap, and ranges with `s1 ≤ s2 < e1 ≤ e2` do. -/
theorem hasTimeOverlap_iff_minutes (a b : ScheduleRecord)
    (ha1 : isHHMM a.startTime = true) (ha2 : isHHMM a.endTime = true)
    (hb1 : isHHMM b.startTime = true) (hb2 : isHHMM b.endTime = true) :
    timeToMinutes a.startTime = some (hhmmMinutes a.startTime) ∧
    timeToMinutes a.endTime = some (hhmmMinutes a.endTime) ∧
    timeToMinutes b.startTime = some (hhmmMinutes b.startTime) ∧
    timeToMinutes b.endTime = some (hhmmMinutes b.endTime) ∧
    (hasTimeOverlap a b = true ↔
      hhmmMinutes a.startTime < hhmmMinutes b.endTime ∧
        hhmmMinutes b.startTime < hhmmMinutes a.endTime) ∧
    (hhmmMinutes a.endTime = hhmmMinutes b.startTime →
      hhmmMinutes a.startTime < hhmmMinutes a.endTime →
      hhmmMinutes b.startTime < hhmmMinutes b.endTime → hasTimeOverlap a b = false) ∧
    (hhmmMinutes b.startTime < hhmmMinutes a.endTime →
      hhmmMinutes a.endTime ≤ hhmmMinutes b.endTime →
      hhmmMinutes a.startTime ≤ hhmmMinutes b.startTime → hasTimeOverlap a b = true) := by
  have e1 := timeToMinutes_of_isHHMM ha1
  have e2 := timeToMinutes_of_isHHMM ha2
  have e3 := timeToMinutes_of_isHHMM hb1
  have e4 := timeToMinutes_of_isHHMM hb2
  refine ⟨e1, e2, e3, e4, ?_, ?_, ?_⟩
  · simp [hasTimeOverlap, e1, e2, e3, e4, jsLt]
  · intro h1 h2 h3
    simp only [hasTimeOverlap, e1, e2, e3, e4, jsLt, Bool.and_eq_false_imp, decide_eq_true_eq,
      decide_eq_false_iff_not]
    omega
  · intro h1 h2 h3
    simp only [hasTimeOverlap, e1, e2, e3, e4, jsLt, Bool.and_eq_true, decide_eq_true_eq]
    omega

/-- C4, at a concrete input: 09:00-10:00 against 10:00-11:00 is back-to-back and
does not overlap. -/
theorem hasTimeOverlap_iff_minutes_witness :
    hhmmMinutes "10:00" = hhmmMinutes "10:00" ∧ hhmmMinutes "09:00" < hhmmMinutes "10:00" ∧
      hhmmMinutes "10:00" < hhmmMinutes "11:00" ∧
      hasTimeOverlap { startTime := "09:00", endTime := "10:00" }
        { startTime := "10:00", endTime := "11:00" } = false :=
  ⟨rfl, by decide, by decide,
    (hasTimeOverlap_iff_minutes { startTime := "09:00", endTime := "10:00" }
      { startTime := "10:00", endTime := "11:00" } rfl rfl rfl rfl).2.2.2.2.2.1 rfl
      (by decide) (by decide)⟩

/-- C5: for records with clock times, `startTime < endTime` on both and
overlapping times, `getOverlapTime a b` is the window from `max(s1, s2)` to
`min(e1, e2)`, printed as `HH:MM` (the later start time and the earlier end
time), with a positive duration; every conflict `detectConflicts` returns for the
pair carries it as `conflictTime`; 09:00-10:00 against 09:30-10:30 gives
09:30-10:00, 30 minutes. -/
theorem getOverlapTime_window (a b : ScheduleRecord)
    (ha1 : isClockTime a.startTime = true) (ha2 : isClockTime a.endTime = true)
    (hb1 : isClockTime b.startTime = true) (hb2 : isClockTime b.endTime = true)
    (ha : hhmmMinutes a.startTime < hhmmMinutes a.endTime)
    (hb : hhmmMinutes b.startTime < hhmmMinutes b.endTime)
    (hov : hasTimeOverlap a b = true) :
    getOverlapTime a b = some
      { start := minutesToTime (some (max (hhmmMinutes a.startTime) (hhmmMinutes b.startTime)))
        end_ := minutesToTime (some (min (hhmmMinutes a.endTime) (hhmmMinutes b.endTime)))
        duration := some (min (hhmmMinutes a.endTime) (hhmmMinutes b.endTime) -
          max (hhmmMinutes a.startTime) (hhmmMinutes b.startTime)) } ∧
    0 < min (hhmmMinutes a.endTime) (hhmmMinutes b.endTime) -
      max (hhmmMinutes a.startTime) (hhmmMinutes b.startTime) ∧
    minutesToTime (some (max (hhmmMinutes a.startTime) (hhmmMinutes b.startTime))) =
      (if hhmmMinutes a.startTime ≤ hhmmMinutes b.startTime then b.startTime else a.startTime) ∧
    minutesToTime (some (min (hhmmMinutes a.endTime) (hhmmMinutes b.endTime))) =
      (if hhmmMinutes a.endTime ≤ hhmmMinutes b.endTime then a.endTime else b.endTime) ∧
    (∀ (self : ConflictDetector) (newSchedule : Option ScheduleRecord) (L : List Conflict),
      (self.detectConflicts newSchedule).1 = .ok L →
        ∀ c ∈ L, c.schedules = [a, b] → c.conflictTime = some (getOverlapTime a b)) ∧
    getOverlapTime { startTime := "09:00", endTime := "10:00" }
      { startTime := "09:30", endTime := "10:30" } =
      some { start := "09:30", end_ := "10:00", duration := some 30 } := by
  obtain ⟨fa1, ma1⟩ := isHHMM_of_isClockTime ha1
  obtain ⟨fa2, ma2⟩ := isHHMM_of_isClockTime ha2
  obtain ⟨fb1, mb1⟩ := isHHMM_of_isClockTime hb1
  obtain ⟨fb2, mb2⟩ := isHHMM_of_isClockTime hb2
  have e1 := timeToMinutes_of_isHHMM fa1
  have e2 := timeToMinutes_of_isHHMM fa2
  have e3 := timeToMinutes_of_isHHMM fb1
  have e4 := timeToMinutes_of_isHHMM fb2
  have hov2 : hhmmMinutes a.startTime < hhmmMinutes b.endTime ∧
      hhmmMinutes b.startTime < hhmmMinutes a.endTime := by
    simpa [hasTimeOverlap, e1, e2, e3, e4, jsLt] using hov
  have hlt : max (hhmmMinutes a.startTime) (hhmmMinutes b.startTime) <
      min (hhmmMinutes a.endTime) (hhmmMinutes b.endTime) := by
    simp only [lt_min_iff, max_lt_iff]
    exact ⟨⟨ha, hov2.2⟩, hov2.1, hb⟩
  have hd : toDouble (min (hhmmMinutes a.endTime) (hhmmMinutes b.endTime) -
      max (hhmmMinutes a.startTime) (hhmmMinutes b.startTime)) =
      min (hhmmMinutes a.endTime) (hhmmMinutes b.endTime) -
        max (hhmmMinutes a.startTime) (hhmmMinutes b.startTime) :=
    toDouble_of_lt (Nat.lt_of_le_of_lt
      (Nat.le_trans (Nat.sub_le _ _) (min_le_left _ _))
      (Nat.lt_trans (hhmmMinutes_lt fa2) (by decide)))
  refine ⟨?_, by omega, ?_, ?_, ?_, rfl⟩
  · simp only [getOverlapTime, e1, e2, e3, e4, jsMax, jsMin, jsGe, jsSub, hd]
    rw [if_neg]
    simp only [decide_eq_true_eq, not_le]
    exact hlt
  · by_cases h : hhmmMinutes a.startTime ≤ hhmmMinutes b.startTime
    · rw [if_pos h, max_eq_right h, minutesToTime_hhmmMinutes fb1 mb1]
    · rw [if_neg h, max_eq_left (le_of_not_le h), minutesToTime_hhmmMinutes fa1 ma1]
  · by_cases h : hhmmMinutes a.endTime ≤ hhmmMinutes b.endTime
    · rw [if_pos h, min_eq_left h, minutesToTime_hhmmMinutes fa2 ma2]
    · rw [if_neg h, min_eq_right (le_of_not_le h), minutesToTime_hhmmMinutes fb2 mb2]
  · intro self newSchedule L hL c hc hs
    obtain ⟨_, rfl⟩ := ok_of_detectConflicts hL
    rcases List.mem_append.mp hc with h | h
    · obtain ⟨x, y, rfl⟩ := type_of_mem_facultyConflictsOf h
      simp only [facultyConflict] at hs ⊢
      injection hs with h1 h2
      injection h2 with h2 _
      rw [h1, h2]
    · obtain ⟨r, _, room, m, _, _, _, _, rfl⟩ := (mem_capacityViolations _ c).mp h
      simp [capacityViolation] at hs

/-- C5, at a concrete input: the two records of faculty `Dr. Santos`, whose
reported conflict carries the window 09:30-10:00. -/
theorem getOverlapTime_window_witness :
    getOverlapTime santosA santosB =
        some { start := "09:30", end_ := "10:00", duration := some 30 } ∧
      (detectConflicts { schedules := [santosA, santosB] } none).1 =
        .ok [facultyConflict santosA santosB] ∧
      (facultyConflict santosA santosB).conflictTime =
        some (some { start := "09:30", end_ := "10:00", duration := some 30 }) :=
  ⟨(getOverlapTime_window santosA santosB rfl rfl rfl rfl (by decide) (by decide) rfl).1,
    rfl,
    (getOverlapTime_window santosA santosB rfl rfl rfl rfl (by decide) (by decide) rfl).2.2.2.2.1
      { schedules := [santosA, santosB] } none _ rfl _ (List.mem_singleton.mpr rfl) rfl⟩

/-- C6: two records with distinct ids, different rooms, the same faculty string,
a shared day, overlapping `HH:MM` times (each with `startTime < endTime`) and no
`maxStudents` give exactly one conflict: a `faculty_conflict` of severity `high`
on the two records, carrying their intersection window and the fixed
rescheduling message. -/
theorem detectConflicts_faculty_pair (a b : ScheduleRecord) (faculty : String)
    (stale : List Conflict)
    (hid : a.id ≠ b.id) (hroom : a.roomName ≠ b.roomName)
    (hfa : a.faculty = some faculty) (hfb : b.faculty = some faculty)
    (hday : ∃ days1 days2 day, a.days = some days1 ∧ b.days = some days2 ∧
      day ∈ days1 ∧ day ∈ days2)
    (ha1 : isHHMM a.startTime = true) (ha2 : isHHMM a.endTime = true)
    (hb1 : isHHMM b.startTime = true) (hb2 : isHHMM b.endTime = true)
    (ha : hhmmMinutes a.startTime < hhmmMinutes a.endTime)
    (hb : hhmmMinutes b.startTime < hhmmMinutes b.endTime)
    (hov1 : hhmmMinutes a.startTime < hhmmMinutes b.endTime)
    (hov2 : hhmmMinutes b.startTime < hhmmMinutes a.endTime)
    (hma : a.maxStudents = none) (hmb : b.maxStudents = none) :
    ∃ c : Conflict,
      (detectConflicts { schedules := [a, b], conflicts := stale } none).1 = .ok [c] ∧
      c.type = "faculty_conflict" ∧ c.severity = "high" ∧ c.schedules = [a, b] ∧
      c.conflictTime = some (some
        { start := minutesToTime
            (some (max (hhmmMinutes a.startTime) (hhmmMinutes b.startTime)))
          end_ := minutesToTime (some (min (hhmmMinutes a.endTime) (hhmmMinutes b.endTime)))
          duration := some (min (hhmmMinutes a.endTime) (hhmmMinutes b.endTime) -
            max (hhmmMinutes a.startTime) (hhmmMinutes b.startTime)) }) ∧
      c.suggestion =
        "Consider rescheduling one of the classes or assigning a different faculty member" := by
  have e1 := timeToMinutes_of_isHHMM ha1
  have e2 := timeToMinutes_of_isHHMM ha2
  have e3 := timeToMinutes_of_isHHMM hb1
  have e4 := timeToMinutes_of_isHHMM hb2
  have htime : hasTimeOverlap a b = true := by
    simp [hasTimeOverlap, e1, e2, e3, e4, jsLt, hov1, hov2]
  have hdays : hasDayOverlap a b = true := by
    obtain ⟨days1, days2, day, h1, h2, m1, m2⟩ := hday
    rw [hasDayOverlap_iff]
    exact ⟨day, by simpa [h1] using m1, by simpa [h2] using m2⟩
  have hr : hasRoomConflict a b = false := by simp [hasRoomConflict, hroom]
  have hf : hasFacultyConflict a b = true := by
    simp [hasFacultyConflict, hfa, hfb, hid, htime, hdays]
  have hlt : max (hhmmMinutes a.startTime) (hhmmMinutes b.startTime) <
      min (hhmmMinutes a.endTime) (hhmmMinutes b.endTime) := by
    simp only [lt_min_iff, max_lt_iff]
    exact ⟨⟨ha, hov2⟩, hov1, hb⟩
  have hd : toDouble (min (hhmmMinutes a.endTime) (hhmmMinutes b.endTime) -
      max (hhmmMinutes a.startTime) (hhmmMinutes b.startTime)) =
      min (hhmmMinutes a.endTime) (hhmmMinutes b.endTime) -
        max (hhmmMinutes a.startTime) (hhmmMinutes b.startTime) :=
    toDouble_of_lt (Nat.lt_of_le_of_lt
      (Nat.le_trans (Nat.sub_le _ _) (min_le_left _ _))
      (Nat.lt_trans (hhmmMinutes_lt ha2) (by decide)))
  refine ⟨facultyConflict a b, ?_, rfl, rfl, rfl, ?_, rfl⟩
  · rw [detectConflicts_eq]
    simp [schedulesToCheck, anyRoomConflict, hr, reportedConflicts, facultyConflictsOf, hf,
      capacityViolationOf, hma, hmb]
  · simp only [facultyConflict, getOverlapTime, e1, e2, e3, e4, jsMax, jsMin, jsGe, jsSub, hd]
    rw [if_neg]
    simp only [decide_eq_true_eq, not_le]
    exact hlt

/-- C6, at a concrete input: the two records of faculty `Dr. Santos`. -/
theorem detectConflicts_faculty_pair_witness :
    ∃ c : Conflict,
      (detectConflicts { schedules := [santosA, santosB], conflicts := [] } none).1 = .ok [c] ∧
      c.type = "faculty_conflict" ∧ c.severity = "high" ∧ c.schedules = [santosA, santosB] ∧
      c.conflictTime = some (some
        { start := minutesToTime
            (some (max (hhmmMinutes santosA.startTime) (hhmmMinutes santosB.startTime)))
          end_ := minutesToTime
            (some (min (hhmmMinutes santosA.endTime) (hhmmMinutes santosB.endTime)))
          duration := some (min (hhmmMinutes santosA.endTime) (hhmmMinutes santosB.endTime) -
            max (hhmmMinutes santosA.startTime) (hhmmMinutes santosB.startTime)) }) ∧
      c.suggestion =
        "Consider rescheduling one of the classes or assigning a different faculty member" :=
  detectConflicts_faculty_pair santosA santosB "Dr. Santos" [] (by decide) (by decide) rfl rfl
    ⟨["Monday"], ["Monday"], "Monday", rfl, rfl, List.mem_singleton.mpr rfl,
      List.mem_singleton.mpr rfl⟩
    rfl rfl rfl rfl (by decide) (by decide) (by decide) (by decide) rfl rfl

/-- C7: the record `overbooked` is in the schedule set, its room `Room 101` is in
the directory with capacity 30 and its `maxStudents` is 60;
`checkCapacityViolations` on its own flags it, but `detectConflicts` throws a
`TypeError` on the room conflict with `roommate` and returns no list. -/
theorem detectConflicts_overbooked_throws :
    overbooked ∈ [overbooked, roommate] ∧
      getRoomDetails overbooked.roomName =
        some { capacity := 30, type := "Lecture Hall", building := "Main Building" } ∧
      overbooked.maxStudents = some 60 ∧
      ((checkCapacityViolations [overbooked, roommate] { }).conflicts.map
        fun c => (c.type, c.severity, c.schedules)) =
        [("capacity_violation", "medium", [overbooked])] ∧
      (detectConflicts { schedules := [overbooked, roommate] } none).1 =
        .error (.typeError "Cannot convert undefined or null to object") :=
  ⟨List.mem_cons_self _ _, rfl, rfl, rfl, rfl⟩

/-- C8: in a list returned by `detectConflicts`, no `capacity_violation` has the
schedules list `[r]` for a record `r` (of the working set or not) that has no
`maxStudents`, or whose room is not in the directory, or whose `maxStudents` is
at most the capacity of its room. -/
theorem no_spurious_capacity_violation (self : ConflictDetector)
    (newSchedule : Option ScheduleRecord) (L : List Conflict) (r : ScheduleRecord)
    (hL : (self.detectConflicts newSchedule).1 = .ok L)
    (hcond : r.maxStudents = none ∨ getRoomDetails r.roomName = none ∨
      ∃ room m, getRoomDetails r.roomName = some room ∧ r.maxStudents = some m ∧
        m ≤ room.capacity) :
    ∀ c ∈ L, c.type = "capacity_violation" → c.schedules ≠ [r] := by
  intro c hc ht hs
  obtain ⟨_, rfl⟩ := ok_of_detectConflicts hL
  rcases List.mem_append.mp hc with h | h
  · obtain ⟨x, y, rfl⟩ := type_of_mem_facultyConflictsOf h
    exact absurd ht (by show ¬ ("faculty_conflict" = "capacity_violation"); decide)
  · obtain ⟨r', _, room, m, hroom, hm, _, hcap, rfl⟩ := (mem_capacityViolations _ c).mp h
    simp only [capacityViolation, List.cons.injEq, and_true] at hs
    subst hs
    rcases hcond with h1 | h1 | ⟨room', m', h1, h2, h3⟩
    · rw [hm] at h1; cases h1
    · rw [hroom] at h1; cases h1
    · rw [hroom] at h1; rw [hm] at h2
      cases h1; cases h2
      omega

/-- C8, at a concrete input: `overbooked` (60 students in `Room 101`) is flagged,
and `santosB`, which has no `maxStudents`, is not. -/
theorem no_spurious_capacity_violation_witness :
    (detectConflicts { schedules := [overbooked, santosB] } none).1 =
        .ok [capacityViolation overbooked 60
          { capacity := 30, type := "Lecture Hall", building := "Main Building" }] ∧
      santosB ∈ schedulesToCheck { schedules := [overbooked, santosB] } none ∧
      santosB.maxStudents = none ∧
      ∀ c ∈ [capacityViolation overbooked 60
          { capacity := 30, type := "Lecture Hall", building := "Main Building" }],
        c.type = "capacity_violation" → c.schedules ≠ [santosB] :=
  ⟨rfl, List.mem_cons_of_mem _ (List.mem_singleton.mpr rfl), rfl,
    no_spurious_capacity_violation { schedules := [overbooked, santosB] } none _ santosB rfl
      (Or.inl rfl)⟩

/-- C9: `hasRoomConflict` and `hasFacultyConflict` are symmetric in their two
records. -/
theorem conflict_predicates_symmetric (a b : ScheduleRecord) :
    hasRoomConflict a b = hasRoomConflict b a ∧
      hasFacultyConflict a b = hasFacultyConflict b a :=
  ⟨hasRoomConflict_comm a b, hasFacultyConflict_comm a b⟩

/-- C10: for a schedule list `L` and a permutation `P` of it, `detectConflicts`
on a detector holding `P` has the same outcome as on a detector holding `L`:
both throw the same exception, or both return lists with the same set of
conflicts, each identified by its type and the set of records it involves. -/
theorem detectConflicts_order_independent (L P : List ScheduleRecord)
    (stale stale' : List Conflict) (newSchedule : Option ScheduleRecord)
    (hperm : List.Perm P L) :
    outcome (detectConflicts { schedules := P, conflicts := stale' } newSchedule).1 =
      outcome (detectConflicts { schedules := L, conflicts := stale } newSchedule).1 := by
  have p := schedulesToCheck_perm hperm stale' stale newSchedule
  rw [detectConflicts_eq, detectConflicts_eq, anyRoomConflict_perm p]
  by_cases h : anyRoomConflict
      (schedulesToCheck { schedules := L, conflicts := stale } newSchedule) = true
  · simp only [h, if_true]
  · simp only [h, Bool.false_eq_true, if_false, outcome, Except.map]
    rw [conflictKeys_reportedConflicts_perm p]

/-- C10, at a concrete input: the two `Dr. Santos` records in both orders give
the one faculty conflict on the same two records. -/
theorem detectConflicts_order_independent_witness :
    List.Perm [santosB, santosA] [santosA, santosB] ∧
      (detectConflicts { schedules := [santosA, santosB] } none).1 =
        .ok [facultyConflict santosA santosB] ∧
      (detectConflicts { schedules := [santosB, santosA] } none).1 =
        .ok [facultyConflict santosB santosA] ∧
      outcome (detectConflicts { schedules := [santosB, santosA], conflicts := [] } none).1 =
        outcome (detectConflicts { schedules := [santosA, santosB], conflicts := [] } none).1 :=
  ⟨List.Perm.swap _ _ _, rfl, rfl,
    detectConflicts_order_independent [santosA, santosB] [santosB, santosA] [] [] none
      (List.Perm.swap _ _ _)⟩

/-- C11: in a list returned by `detectConflicts`, with or without a candidate,
every `room_conflict` and `faculty_conflict` involves two records with different
ids; a candidate carrying the id of an existing record is not reported in
conflict with that record; and the two pairwise predicates are false on records
with equal ids. -/
theorem no_conflict_between_equal_ids (self : ConflictDetector)
    (newSchedule : Option ScheduleRecord) (L : List Conflict)
    (hL : (self.detectConflicts newSchedule).1 = .ok L) :
    (∀ c ∈ L, c.type = "room_conflict" ∨ c.type = "faculty_conflict" →
      ∃ a b, c.schedules = [a, b] ∧ a.id ≠ b.id) ∧
    (∀ c ∈ L, ∀ a b, c.schedules = [a, b] → a.id ≠ b.id) ∧
    (∀ candidate s, newSchedule = some candidate → s ∈ self.schedules →
      s.id = candidate.id → ∀ c ∈ L, c.schedules ≠ [s, candidate]) ∧
    (∀ a b : ScheduleRecord, a.id = b.id →
      hasRoomConflict a b = false ∧ hasFacultyConflict a b = false) := by
  obtain ⟨_, rfl⟩ := ok_of_detectConflicts hL
  have key : ∀ c ∈ reportedConflicts (self.schedulesToCheck newSchedule),
      ∀ a b, c.schedules = [a, b] → a.id ≠ b.id := by
    intro c hc a b hs
    rcases schedules_of_reported hc with ⟨x, y, _, hf, rfl⟩ | ⟨r, _, _, hr⟩
    · simp only [facultyConflict, List.cons.injEq, and_true] at hs
      obtain ⟨rfl, rfl⟩ := hs
      exact ids_of_hasFacultyConflict hf
    · rw [hr] at hs
      simp at hs
  refine ⟨?_, key, ?_, ?_⟩
  · intro c hc ht
    rcases schedules_of_reported hc with ⟨x, y, _, hf, rfl⟩ | ⟨r, _, hcap, _⟩
    · exact ⟨x, y, rfl, ids_of_hasFacultyConflict hf⟩
    · exfalso
      unfold capacityViolationOf at hcap
      split at hcap
      · split at hcap
        · cases hcap
          rcases ht with ht | ht <;> exact absurd ht (by simp [capacityViolation])
        · cases hcap
      · cases hcap
  · intro candidate s _ _ hid c hc hs
    exact key c hc s candidate hs hid
  · intro a b hid
    simp [hasRoomConflict, hasFacultyConflict, hid]

/-- C11, at a concrete input: the detector holds `santosA` and `santosB`, the
candidate `twin` carries the id of `santosA`; the two conflicts returned are
`santosA` with `santosB` and `santosB` with `twin`, none is `santosA` with `twin`. -/
theorem no_conflict_between_equal_ids_witness :
    (detectConflicts { schedules := [santosA, santosB] } (some twin)).1 =
        .ok [facultyConflict santosA santosB, facultyConflict santosB twin] ∧
      santosA.id = twin.id ∧
      ∀ c ∈ [facultyConflict santosA santosB, facultyConflict santosB twin],
        c.schedules ≠ [santosA, twin] :=
  ⟨rfl, rfl,
    (no_conflict_between_equal_ids { schedules := [santosA, santosB] } (some twin) _ rfl).2.2.1
      twin santosA rfl (List.mem_cons_self _ _) rfl⟩

/-- C12: two records whose `days` lists have no day name in common have neither a
room conflict nor a faculty conflict, whatever their rooms, faculty and times;
a schedule set of two such records without `maxStudents` gives the empty list. -/
theorem no_conflict_on_disjoint_days (a b : ScheduleRecord) (days1 days2 : List String)
    (ha : a.days = some days1) (hb : b.days = some days2)
    (hdisjoint : ∀ day ∈ days1, day ∉ days2) :
    hasRoomConflict a b = false ∧ hasFacultyConflict a b = false ∧
      (a.maxStudents = none → b.maxStudents = none → ∀ stale : List Conflict,
        (detectConflicts { schedules := [a, b], conflicts := stale } none).1 = .ok []) := by
  have hd : hasDayOverlap a b = false := by
    rw [Bool.eq_false_iff]
    intro h
    obtain ⟨day, h1, h2⟩ := (hasDayOverlap_iff a b).mp h
    rw [ha] at h1
    rw [hb] at h2
    exact hdisjoint day h1 h2
  have hr : hasRoomConflict a b = false := by simp [hasRoomConflict, hd]
  have hf : hasFacultyConflict a b = false := by simp [hasFacultyConflict, hd]
  refine ⟨hr, hf, ?_⟩
  intro hma hmb stale
  rw [detectConflicts_eq]
  simp [schedulesToCheck, anyRoomConflict, hr, reportedConflicts, facultyConflictsOf, hf,
    capacityViolationOf, hma, hmb]

/-- C12, at a concrete input: scenario 2, the same room and overlapping times,
Monday and Wednesday against Tuesday and Thursday. -/
theorem no_conflict_on_disjoint_days_witness :
    scenarioX.roomName = scenario2Y.roomName ∧ hasTimeOverlap scenarioX scenario2Y = true ∧
      (detectConflicts { schedules := [scenarioX, scenario2Y], conflicts := [] } none).1 =
        .ok [] :=
  ⟨rfl, rfl,
    (no_conflict_on_disjoint_days scenarioX scenario2Y ["Monday", "Wednesday"]
      ["Tuesday", "Thursday"] rfl rfl (by decide)).2.2 rfl rfl []⟩

/-- C13: the completion of `detectConflicts` and the detector it leaves do not
depend on the value of the cached `conflicts` field, and a second call on the
detector the first call left has the same completion as the first. -/
theorem detectConflicts_deterministic (schedules : List ScheduleRecord)
    (stale stale' : List Conflict) (newSchedule : Option ScheduleRecord) :
    detectConflicts { schedules := schedules, conflicts := stale } newSchedule =
        detectConflicts { schedules := schedules, conflicts := stale' } newSchedule ∧
      (detectConflicts
          (detectConflicts { schedules := schedules, conflicts := stale } newSchedule).2
          newSchedule).1 =
        (detectConflicts { schedules := schedules, conflicts := stale } newSchedule).1 := by
  constructor
  · rw [detectConflicts_eq, detectConflicts_eq]
    rfl
  · exact detectConflicts_fst_congr _ _ newSchedule (detectConflicts_schedules _ newSchedule)

/-- C14: with `noDays` held by the detector and the candidate `fourHours`,
`detectConflicts` returns the empty list but `validateSchedule` returns no
object: `generateWarnings` reads `s.days.some` on the record without `days` and
throws a `TypeError`. -/
theorem validateSchedule_throws_on_missing_days :
    (detectConflicts { schedules := [noDays] } (some fourHours)).1 = .ok [] ∧
      generateWarnings { schedules := [noDays] } fourHours =
        .error (.typeError "Cannot read properties of undefined (reading 'some')") ∧
      (validateSchedule { schedules := [noDays] } fourHours).1 =
        .error (.typeError "Cannot read properties of undefined (reading 'some')") :=
  ⟨rfl, rfl, rfl⟩

/-- C15, as stated, fails: the candidate `lookalike` has no room conflict and no
faculty conflict with `santosA` or `santosB` and no capacity violation, yet
`validateSchedule` reports it invalid, because the conflict between `santosA` and
`santosB` is kept for `santosA` having the candidate's `subjectCode` and
`startTime`. -/
theorem validateSchedule_blocks_lookalike :
    (∀ s ∈ [santosA, santosB],
        hasRoomConflict s lookalike = false ∧ hasFacultyConflict s lookalike = false) ∧
      capacityViolationOf lookalike = none ∧
      (validateSchedule { schedules := [santosA, santosB] } lookalike).1 =
        .ok { isValid := false
              conflicts := [facultyConflict santosA santosB]
              warnings := [] } :=
  ⟨by decide, rfl, rfl⟩

/-- C15, amended: when the candidate has no faculty conflict and no room conflict
with any existing record, no capacity violation of its own, and no existing
record has both its `subjectCode` and its `startTime`, every object
`validateSchedule` returns has `isValid` true and no conflicts, whatever faculty
conflicts and capacity violations the existing records have among themselves;
and `validateSchedule` does return one when no two existing records have a room
conflict and every record has a `days` list. -/
theorem validateSchedule_valid_of_uninvolved (self : ConflictDetector) (c : ScheduleRecord)
    (hfac : ∀ s ∈ self.schedules, hasFacultyConflict s c = false)
    (hroom : ∀ s ∈ self.schedules, hasRoomConflict s c = false)
    (hcap : capacityViolationOf c = none)
    (hfb : ∀ s ∈ self.schedules,
      ¬ (s.subjectCode = c.subjectCode ∧ s.startTime = c.startTime)) :
    (∀ v, (self.validateSchedule c).1 = .ok v → v.isValid = true ∧ v.conflicts = []) ∧
    (anyRoomConflict self.schedules = false →
      (∀ s ∈ self.schedules, ∃ ds, s.days = some ds) → (∃ dc, c.days = some dc) →
      ∃ v, (self.validateSchedule c).1 = .ok v) := by
  have hnil : ∀ D, (self.detectConflicts (some c)).1 = .ok D →
      D.filter (involvesSchedule c) = [] := by
    intro D hD
    obtain ⟨_, rfl⟩ := ok_of_detectConflicts hD
    rw [List.filter_eq_nil_iff]
    intro k hk
    rw [not_involved_of_uninvolved self.schedules c hfac hcap hfb hk]
    simp
  constructor
  · intro v hv
    rw [validateSchedule_eq] at hv
    cases hD : (self.detectConflicts (some c)).1 with
    | error e => simp [hD] at hv
    | ok D =>
      cases hW : self.generateWarnings c with
      | error e => simp [hD, hW] at hv
      | ok W =>
        simp only [hD, hW, hnil D hD] at hv
        cases Except.ok.inj hv
        exact ⟨rfl, rfl⟩
  · rintro hany hdays ⟨dc, hdc⟩
    have hws : anyRoomConflict (self.schedulesToCheck (some c)) = false := by
      simp only [schedulesToCheck, anyRoomConflict_append_singleton, hany, Bool.false_or]
      rw [Bool.eq_false_iff]
      intro h
      obtain ⟨s, hs, hc⟩ := List.any_eq_true.mp h
      rw [hroom s hs] at hc
      cases hc
    rw [validateSchedule_eq, detectConflicts_eq, hws,
      generateWarnings_of_days self c dc hdc hdays]
    exact ⟨_, rfl⟩

/-- C15, amended, at a concrete input: `santosA` and `santosB` conflict with each
other, and the candidate `evening` is valid. -/
theorem validateSchedule_valid_of_uninvolved_witness :
    (facultyConflict santosA santosB) ∈
        reportedConflicts (schedulesToCheck { schedules := [santosA, santosB] } (some evening)) ∧
      (validateSchedule { schedules := [santosA, santosB] } evening).1 =
        .ok { isValid := true, conflicts := [], warnings := [unusualHoursWarning] } ∧
      (({ isValid := true, conflicts := [], warnings := [unusualHoursWarning] } :
          Validation).isValid = true ∧
        ({ isValid := true, conflicts := [], warnings := [unusualHoursWarning] } :
          Validation).conflicts = []) :=
  ⟨by decide, rfl,
    (validateSchedule_valid_of_uninvolved { schedules := [santosA, santosB] } evening
      (by decide) (by decide) rfl (by decide)).1 _ rfl⟩

/-- C16: on a detector whose schedules all have `days` lists and for a candidate
with a `days` list, `generateWarnings` returns a list, and it contains a
`back_to_back` warning exactly when some existing schedule has the candidate's
faculty, shares a day with it, and ends at the minute the candidate starts or
starts at the minute the candidate ends; validating scenario 3's Y against X
gives no conflicts, `isValid` true and a `back_to_back` warning. -/
theorem backToBack_warning_iff (self : ConflictDetector) (c : ScheduleRecord)
    (dc : List String) (hc : c.days = some dc)
    (hl : ∀ s ∈ self.schedules, ∃ ds, s.days = some ds) :
    (∃ W, self.generateWarnings c = .ok W ∧
      ((∃ w ∈ W, w.type = "back_to_back") ↔
        ∃ s ∈ self.schedules, s.faculty = c.faculty ∧
          (∃ ds day, s.days = some ds ∧ day ∈ ds ∧ day ∈ dc) ∧
          ((∃ m, timeToMinutes s.endTime = some m ∧ timeToMinutes c.startTime = some m) ∨
            (∃ m, timeToMinutes c.endTime = some m ∧ timeToMinutes s.startTime = some m)))) ∧
    (validateSchedule { schedules := [scenario3X] } scenario3Y).1 =
      .ok { isValid := true, conflicts := [], warnings := [backToBackWarning scenario3Y] } := by
  refine ⟨⟨_, generateWarnings_of_days self c dc hc hl, ?_⟩, rfl⟩
  rw [backToBack_mem_warningsFor, Ne, List.filter_eq_nil_iff]
  simp only [not_forall, not_not, exists_prop, backToBackWith, Bool.and_eq_true,
    Bool.or_eq_true, decide_eq_true_eq, jsNumEq_iff, hasDayOverlap_iff, hc, Option.getD_some]
  constructor
  · rintro ⟨s, hs, ⟨hf, day, h1, h2⟩, ht⟩
    obtain ⟨ds, hds⟩ := hl s hs
    rw [hds] at h1
    exact ⟨s, hs, hf, ⟨ds, day, hds, h1, h2⟩, ht⟩
  · rintro ⟨s, hs, hf, ⟨ds, day, hds, h1, h2⟩, ht⟩
    exact ⟨s, hs, ⟨hf, day, by rw [hds]; exact h1, h2⟩, ht⟩

/-- C16, at a concrete input: scenario 3, X held by the detector and Y the
candidate. -/
theorem backToBack_warning_iff_witness :
    generateWarnings { schedules := [scenario3X] } scenario3Y =
        .ok [backToBackWarning scenario3Y] ∧
      ∃ W, generateWarnings { schedules := [scenario3X] } scenario3Y = .ok W ∧
        ((∃ w ∈ W, w.type = "back_to_back") ↔
          ∃ s ∈ [scenario3X], s.faculty = scenario3Y.faculty ∧
            (∃ ds day, s.days = some ds ∧ day ∈ ds ∧ day ∈ ["Monday"]) ∧
            ((∃ m, timeToMinutes s.endTime = some m ∧
                timeToMinutes scenario3Y.startTime = some m) ∨
              (∃ m, timeToMinutes scenario3Y.endTime = some m ∧
                timeToMinutes s.startTime = some m))) :=
  ⟨rfl,
    (backToBack_warning_iff { schedules := [scenario3X] } scenario3Y ["Monday"] rfl
      (fun s hs => ⟨["Monday"], by rw [List.mem_singleton.mp hs]; rfl⟩)).1⟩

/-- C17, as stated, fails: a candidate starting at 18:30 gets an `unusual_hours`
warning although its hour, 18, is neither less than 7 nor greater than 18. -/
theorem unusual_hours_at_half_past_six :
    isHHMM evening.startTime = true ∧ hhmmHours evening.startTime = 18 ∧
      generateWarnings { schedules := [] } evening = .ok [unusualHoursWarning] ∧
      unusualHoursWarning.type = "unusual_hours" ∧
      ¬ (hhmmHours evening.startTime < 7 ∨ 18 < hhmmHours evening.startTime) :=
  ⟨rfl, rfl, rfl, rfl, by decide⟩

/-- C17, amended: for a candidate with an `HH:MM` start time, every list
`generateWarnings` returns contains an `unusual_hours` warning exactly when the
start time is before 07:00 or after 18:00 in minutes since midnight; for minutes
`MM` up to 59 that is: the hour is less than 7, or greater than 18, or equal to 18
with `MM` not zero.  The list is returned whenever every record has a `days`
list. -/
theorem unusual_hours_iff (self : ConflictDetector) (c : ScheduleRecord)
    (h : isHHMM c.startTime = true) :
    (∀ W, self.generateWarnings c = .ok W →
      ((∃ w ∈ W, w.type = "unusual_hours") ↔
        hhmmMinutes c.startTime < 7 * 60 ∨ 18 * 60 < hhmmMinutes c.startTime)) ∧
    (hhmmMins c.startTime ≤ 59 →
      (hhmmMinutes c.startTime < 7 * 60 ∨ 18 * 60 < hhmmMinutes c.startTime ↔
        hhmmHours c.startTime < 7 ∨ 18 < hhmmHours c.startTime ∨
          (hhmmHours c.startTime = 18 ∧ 0 < hhmmMins c.startTime))) ∧
    ((∃ dc, c.days = some dc) → (∀ s ∈ self.schedules, ∃ ds, s.days = some ds) →
      ∃ W, self.generateWarnings c = .ok W) := by
  refine ⟨?_, ?_, ?_⟩
  · intro W hW
    obtain ⟨kept, _, rfl⟩ := warnings_of_generateWarnings hW
    rw [unusualHours_mem_warningsFor, timeToMinutes_of_isHHMM h]
    simp [jsLt]
  · intro hm
    unfold hhmmMinutes
    omega
  · rintro ⟨dc, hdc⟩ hl
    exact ⟨_, generateWarnings_of_days self c dc hdc hl⟩

/-- C17, amended, at a concrete input: the candidate starting at 18:30. -/
theorem unusual_hours_iff_witness :
    isHHMM evening.startTime = true ∧
      ((∃ w ∈ [unusualHoursWarning], w.type = "unusual_hours") ↔
        hhmmMinutes evening.startTime < 7 * 60 ∨ 18 * 60 < hhmmMinutes evening.startTime) :=
  ⟨rfl, (unusual_hours_iff { schedules := [] } evening rfl).1 _ rfl⟩

/-- C18: the candidate `fourHours` has `HH:MM` times 240 minutes apart; on an empty
detector `generateWarnings` gives it the `long_duration` warning, but with
`noDays` held by the detector `generateWarnings` throws a `TypeError` and returns
no list. -/
theorem generateWarnings_throws_on_missing_days :
    isHHMM fourHours.startTime = true ∧ isHHMM fourHours.endTime = true ∧
      hhmmMinutes fourHours.endTime - hhmmMinutes fourHours.startTime = 240 ∧
      generateWarnings { schedules := [] } fourHours = .ok [longDurationWarning] ∧
      generateWarnings { schedules := [noDays] } fourHours =
        .error (.typeError "Cannot read properties of undefined (reading 'some')") :=
  ⟨rfl, rfl, rfl, rfl, rfl⟩

/-- C19: for the conflicting records `fullA` and `fullB` (40 students each, both
in `Room 201`) the suggestion the specification describes names `Room 105`, the
first room of capacity at least 40 that is free; `suggestRoomAlternative` throws
a `TypeError` instead of returning a suggestion. -/
theorem suggestRoomAlternative_throws_on_full_room :
    hasRoomConflict fullA fullB = true ∧
      suggestRoomAlternativeSpec { schedules := [fullA, fullB] } fullA fullB =
        "Consider moving to Room 105 which is available during this time" ∧
      suggestRoomAlternative { schedules := [fullA, fullB] } fullA fullB =
        .error (.typeError "Cannot convert undefined or null to object") :=
  ⟨rfl, rfl, rfl⟩

/-- C20: for the record `overbooked` (60 students in `Room 101`) on a detector
without schedules, the room the specification describes is `Room 350`, the first
room of capacity at least 60 for which the validation passes;
`findAlternativeRoom` throws a `TypeError` instead of returning a room or `null`. -/
theorem findAlternativeRoom_throws :
    (findAlternativeRoomSpec { schedules := [] } overbooked).1 = .ok (some "Room 350") ∧
      (findAlternativeRoom { schedules := [] } overbooked).1 =
        .error (.typeError "Cannot convert undefined or null to object") :=
  ⟨rfl, rfl⟩

/-- C21: the detector tracks a `room_conflict` whose first schedule `bookedA` (40
students in `Room 201`) has in `Room 105` a room of capacity 45 where it has no
room conflict, no faculty conflict and no capacity violation; `autoResolveConflicts`
throws a `TypeError` instead of returning a list with a `room_change`. -/
theorem autoResolveConflicts_throws :
    trackedRoomConflict.type = "room_conflict" ∧
      trackedRoomConflict.schedules.head? = some bookedA ∧
      getRoomDetails (some "Room 105") =
        some { capacity := 45, type := "Classroom", building := "Science Building" } ∧
      hasRoomConflict { bookedA with roomName := some "Room 105" } bookedB = false ∧
      hasFacultyConflict { bookedA with roomName := some "Room 105" } bookedB = false ∧
      capacityViolationOf { bookedA with roomName := some "Room 105" } = none ∧
      (autoResolveConflicts
          { schedules := [bookedA, bookedB], conflicts := [trackedRoomConflict] }).1 =
        .error (.typeError "Cannot convert undefined or null to object") :=
  ⟨rfl, rfl, rfl, rfl, rfl, rfl, rfl⟩

/-- C22: `detectConflicts`, `validateSchedule`, `findAlternativeRoom` and
`autoResolveConflicts` leave the detector's schedules list as it was, whether
they return or throw, so a candidate is not added to it; `generateWarnings`
writes no field of the detector and is embedded as a function of the detector
that returns no new one. -/
theorem schedules_read_only (self : ConflictDetector) (newSchedule : Option ScheduleRecord)
    (candidate schedule : ScheduleRecord) :
    (self.detectConflicts newSchedule).2.schedules = self.schedules ∧
      (self.validateSchedule candidate).2.schedules = self.schedules ∧
      (self.findAlternativeRoom schedule).2.schedules = self.schedules ∧
      self.autoResolveConflicts.2.schedules = self.schedules :=
  ⟨detectConflicts_schedules self newSchedule, validateSchedule_schedules self candidate,
    findAlternativeRoom_schedules self schedule, autoResolveLoop_schedules _ _ self⟩

/-- C23, as stated, fails: two records that both lack `faculty` have a faculty
conflict and are reported as one by `detectConflicts`, and two records that both
lack `roomName` have a room conflict. -/
theorem absent_keys_match_each_other :
    noFacultyA.faculty = none ∧ noFacultyB.faculty = none ∧
      hasFacultyConflict noFacultyA noFacultyB = true ∧
      (detectConflicts { schedules := [noFacultyA, noFacultyB] } none).1 =
        .ok [facultyConflict noFacultyA noFacultyB] ∧
      (facultyConflict noFacultyA noFacultyB).type = "faculty_conflict" ∧
      hasRoomConflict { noFacultyA with roomName := none }
        { noFacultyB with roomName := none } = true :=
  ⟨rfl, rfl, rfl, rfl, rfl, rfl⟩

/-- C23, amended: when `roomName` is missing from exactly one of two records they
have no room conflict; when `faculty` is missing from exactly one of them they
have no faculty conflict, and no list returned by `detectConflicts` holds a
conflict on the two. -/
theorem absent_key_matches_only_absent (a b : ScheduleRecord) :
    (a.roomName.isSome ≠ b.roomName.isSome → hasRoomConflict a b = false) ∧
    (a.faculty.isSome ≠ b.faculty.isSome →
      hasFacultyConflict a b = false ∧
        ∀ (self : ConflictDetector) (newSchedule : Option ScheduleRecord) (L : List Conflict),
          (self.detectConflicts newSchedule).1 = .ok L →
            ∀ c ∈ L, c.schedules ≠ [a, b]) := by
  constructor
  · intro h
    have hne : a.roomName ≠ b.roomName := fun e => h (by rw [e])
    simp [hasRoomConflict, hne]
  · intro h
    have hne : a.faculty ≠ b.faculty := fun e => h (by rw [e])
    refine ⟨by simp [hasFacultyConflict, hne], ?_⟩
    intro self newSchedule L hL c hc hs
    obtain ⟨_, rfl⟩ := ok_of_detectConflicts hL
    exact hne (overlaps_of_hasFacultyConflict (pair_of_reported hc hs).2.1).1

/-- C23, amended, at a concrete input: `noFacultyA` lacks `faculty` and `santosB` has
one; the two overlap on Monday and are not reported. -/
theorem absent_key_matches_only_absent_witness :
    noFacultyA.faculty = none ∧ santosB.faculty = some "Dr. Santos" ∧
      hasFacultyConflict noFacultyA santosB = false ∧
      (detectConflicts { schedules := [noFacultyA, santosB] } none).1 = .ok [] :=
  ⟨rfl, rfl,
    ((absent_key_matches_only_absent noFacultyA santosB).2 (by decide)).1, rfl⟩

/-- C24: when `days` is missing from one of two records, they have no day overlap,
no room conflict and no faculty conflict; and in a list returned by
`detectConflicts` every record involved in a `room_conflict` or a
`faculty_conflict` has a `days` field. -/
theorem no_conflict_without_days (a b : ScheduleRecord) (h : a.days = none ∨ b.days = none) :
    hasDayOverlap a b = false ∧ hasRoomConflict a b = false ∧
      hasFacultyConflict a b = false ∧
      ∀ (self : ConflictDetector) (newSchedule : Option ScheduleRecord) (L : List Conflict),
        (self.detectConflicts newSchedule).1 = .ok L →
          ∀ c ∈ L, c.type = "room_conflict" ∨ c.type = "faculty_conflict" →
            ∀ r ∈ c.schedules, r.days ≠ none := by
  have hd : hasDayOverlap a b = false := by
    rw [Bool.eq_false_iff]
    intro hov
    have := days_of_hasDayOverlap hov
    rcases h with h | h
    · exact this.1 h
    · exact this.2 h
  refine ⟨hd, by simp [hasRoomConflict, hd], by simp [hasFacultyConflict, hd], ?_⟩
  intro self newSchedule L hL c hc ht r hr
  obtain ⟨_, rfl⟩ := ok_of_detectConflicts hL
  rcases type_of_reported hc with ⟨_, _, x, y, hs⟩ | ⟨hcap, _, _⟩
  · have hov := days_of_hasDayOverlap
      (overlaps_of_hasFacultyConflict (pair_of_reported hc hs).2.1).2.2
    rw [hs] at hr
    simp only [List.mem_cons, List.mem_singleton, List.not_mem_nil, or_false] at hr
    rcases hr with rfl | rfl
    · exact hov.1
    · exact hov.2
  · rw [hcap] at ht
    rcases ht with ht | ht <;> exact absurd ht (by decide)

/-- C24, at a concrete input: `noDays` against `morning`, both of `Dr. Santos`, with
overlapping times. -/
theorem no_conflict_without_days_witness :
    noDays.days = none ∧
      hasTimeOverlap { noDays with startTime := "09:00", endTime := "10:00" } morning = true ∧
      hasFacultyConflict { noDays with startTime := "09:00", endTime := "10:00" } morning =
        false ∧
      (detectConflicts
        { schedules := [{ noDays with startTime := "09:00", endTime := "10:00" }, morning] }
        none).1 = .ok [] :=
  ⟨rfl, rfl,
    (no_conflict_without_days { noDays with startTime := "09:00", endTime := "10:00" } morning
      (Or.inl rfl)).2.2.1, rfl⟩

/-- C25: `generateWarnings` does not degrade gracefully on missing `days`: for the
candidate `noDays` against `scenario3X` of the same faculty it throws on
`schedule.days.includes`, and for the candidate `scenario3Y` against the existing
record `noDays` it throws on `s.days.some`; on the same pairs `hasDayOverlap`
defaults the missing `days` and is false. -/
theorem generateWarnings_throws_without_days :
    isHHMM noDays.startTime = true ∧ isHHMM noDays.endTime = true ∧ noDays.days = none ∧
      generateWarnings { schedules := [scenario3X] } noDays =
        .error (.typeError "Cannot read properties of undefined (reading 'includes')") ∧
      generateWarnings { schedules := [noDays] } scenario3Y =
        .error (.typeError "Cannot read properties of undefined (reading 'some')") ∧
      hasDayOverlap scenario3X noDays = false ∧ hasDayOverlap noDays scenario3Y = false :=
  ⟨rfl, rfl, rfl, rfl, rfl, rfl, rfl⟩

/-- C27: `detectConflicts` throws exactly when the working set (the schedules, then
the candidate) has two positions `i < j` whose records satisfy `hasRoomConflict`;
otherwise it returns a list; and no list it returns holds a `room_conflict`. -/
theorem detectConflicts_throws_iff (self : ConflictDetector)
    (newSchedule : Option ScheduleRecord) :
    ((∃ e, (self.detectConflicts newSchedule).1 = .error e) ↔
      ∃ (i j : Nat) (a b : ScheduleRecord), i < j ∧ (self.schedulesToCheck newSchedule)[i]? = some a ∧
        (self.schedulesToCheck newSchedule)[j]? = some b ∧ hasRoomConflict a b = true) ∧
    ((¬ ∃ (i j : Nat) (a b : ScheduleRecord), i < j ∧ (self.schedulesToCheck newSchedule)[i]? = some a ∧
        (self.schedulesToCheck newSchedule)[j]? = some b ∧ hasRoomConflict a b = true) →
      ∃ L, (self.detectConflicts newSchedule).1 = .ok L) ∧
    (∀ L, (self.detectConflicts newSchedule).1 = .ok L →
      ∀ c ∈ L, c.type ≠ "room_conflict") := by
  have hpos : anyRoomConflict (self.schedulesToCheck newSchedule) = true ↔
      ∃ (i j : Nat) (a b : ScheduleRecord), i < j ∧ (self.schedulesToCheck newSchedule)[i]? = some a ∧
        (self.schedulesToCheck newSchedule)[j]? = some b ∧ hasRoomConflict a b = true := by
    rw [anyRoomConflict_iff]
    constructor
    · rintro ⟨a, b, hs, h⟩
      obtain ⟨i, j, hij, hi, hj⟩ := (pair_sublist_iff_positions a b _).mp hs
      exact ⟨i, j, a, b, hij, hi, hj, h⟩
    · rintro ⟨i, j, a, b, hij, hi, hj, h⟩
      exact ⟨a, b, (pair_sublist_iff_positions a b _).mpr ⟨i, j, hij, hi, hj⟩, h⟩
  refine ⟨?_, ?_, ?_⟩
  · rw [← hpos, detectConflicts_eq]
    by_cases h : anyRoomConflict (self.schedulesToCheck newSchedule) = true
    · simp [h]
    · simp [h]
  · intro hno
    rw [← hpos] at hno
    rw [detectConflicts_eq]
    simp only [hno, if_false]
    exact ⟨_, rfl⟩
  · intro L hL c hc ht
    obtain ⟨_, rfl⟩ := ok_of_detectConflicts hL
    rcases type_of_reported hc with ⟨h, _, _⟩ | ⟨h, _, _⟩ <;>
      · rw [h] at ht
        exact absurd ht (by decide)

/-- C28: two records that both lack an `id` have no room conflict and no faculty
conflict, whatever their rooms, faculty, times and days, and no list returned by
`detectConflicts` holds a conflict on the two, in either order. -/
theorem no_conflict_without_ids (a b : ScheduleRecord) (ha : a.id = none) (hb : b.id = none) :
    hasRoomConflict a b = false ∧ hasFacultyConflict a b = false ∧
      ∀ (self : ConflictDetector) (newSchedule : Option ScheduleRecord) (L : List Conflict),
        (self.detectConflicts newSchedule).1 = .ok L →
          ∀ c ∈ L, c.schedules ≠ [a, b] ∧ c.schedules ≠ [b, a] := by
  have hid : a.id = b.id := by rw [ha, hb]
  refine ⟨by simp [hasRoomConflict, hid], by simp [hasFacultyConflict, hid], ?_⟩
  intro self newSchedule L hL c hc
  obtain ⟨_, rfl⟩ := ok_of_detectConflicts hL
  constructor
  · intro hs
    exact ids_of_hasFacultyConflict (pair_of_reported hc hs).2.1 hid
  · intro hs
    exact ids_of_hasFacultyConflict (pair_of_reported hc hs).2.1 hid.symm

/-- C28, at a concrete input: `noIdA` held by the detector and the candidate `noIdB`,
the same room and faculty, overlapping on Monday. -/
theorem no_conflict_without_ids_witness :
    noIdA.roomName = noIdB.roomName ∧ noIdA.faculty = noIdB.faculty ∧
      hasTimeOverlap noIdA noIdB = true ∧ hasDayOverlap noIdA noIdB = true ∧
      hasRoomConflict noIdA noIdB = false ∧
      (detectConflicts { schedules := [noIdA] } (some noIdB)).1 = .ok [] :=
  ⟨rfl, rfl, rfl, rfl, (no_conflict_without_ids noIdA noIdB rfl rfl).1, rfl⟩

/-- C26: for a tracked conflict list `C` whose types are conflict types of the data
model, `getConflictSummary` gives `total` the length of `C`, `high`, `medium` and
`low` the numbers of conflicts of that severity, and `byType` one entry for each
type occurring in `C`, with its number of occurrences, and no other key, so that
the counts of `byType` sum to `total`; and on the list left by any call of
`detectConflicts`, `low` is 0 and `high + medium` is `total`. -/
theorem getConflictSummary_counts (self : ConflictDetector)
    (htypes : ∀ c ∈ self.conflicts, c.type ∈ conflictTypes) :
    self.getConflictSummary.total = self.conflicts.length ∧
    self.getConflictSummary.high =
      self.conflicts.countP (fun c => decide (c.severity = "high")) ∧
    self.getConflictSummary.medium =
      self.conflicts.countP (fun c => decide (c.severity = "medium")) ∧
    self.getConflictSummary.low =
      self.conflicts.countP (fun c => decide (c.severity = "low")) ∧
    (∀ t, self.getConflictSummary.byType.lookup t =
      if self.conflicts.countP (fun c => decide (c.type = t)) = 0 then none
      else some (self.conflicts.countP (fun c => decide (c.type = t)))) ∧
    (∀ t, t ∈ self.getConflictSummary.byType.map Prod.fst → t ∈ conflictTypes) ∧
    (self.getConflictSummary.byType.map Prod.fst).Nodup ∧
    (self.getConflictSummary.byType.map Prod.snd).sum = self.getConflictSummary.total ∧
    (∀ (other : ConflictDetector) (newSchedule : Option ScheduleRecord),
      (other.detectConflicts newSchedule).2.getConflictSummary.low = 0 ∧
        (other.detectConflicts newSchedule).2.getConflictSummary.high +
            (other.detectConflicts newSchedule).2.getConflictSummary.medium =
          (other.detectConflicts newSchedule).2.getConflictSummary.total) := by
  have hlook : ∀ t, self.getConflictSummary.byType.lookup t =
      if self.conflicts.countP (fun c => decide (c.type = t)) = 0 then none
      else some (self.conflicts.countP (fun c => decide (c.type = t))) := by
    intro t
    simp only [getConflictSummary, byType_fold, List.lookup_nil, Option.getD_none, Nat.zero_add]
  refine ⟨rfl, ?_, ?_, ?_, hlook, ?_, ?_, ?_, ?_⟩
  · simp [getConflictSummary, List.countP_eq_length_filter]
  · simp [getConflictSummary, List.countP_eq_length_filter]
  · simp [getConflictSummary, List.countP_eq_length_filter]
  · intro t ht
    obtain ⟨⟨k, n⟩, hmem, rfl⟩ := List.mem_map.mp ht
    have hsome : (self.getConflictSummary.byType.lookup k).isSome = true := by
      rw [List.lookup_isSome_iff]
      exact ⟨(k, n), hmem, by simp⟩
    rw [hlook k] at hsome
    by_cases h0 : self.conflicts.countP (fun c => decide (c.type = k)) = 0
    · simp [h0] at hsome
    · obtain ⟨c, hc, hck⟩ := List.countP_pos_iff.mp (Nat.pos_of_ne_zero h0)
      have := htypes c hc
      rw [decide_eq_true_eq] at hck
      rw [← hck]
      exact this
  · exact byType_fold_nodup _ _ List.nodup_nil
  · simp [getConflictSummary, byType_fold_sum]
  · intro other newSchedule
    have hsev : ∀ c ∈ (other.detectConflicts newSchedule).2.conflicts,
        c.severity = "high" ∨ c.severity = "medium" := by
      intro c hc
      rcases detectConflicts_conflicts other newSchedule with h | h
      · rw [h] at hc
        cases hc
      · rw [h] at hc
        rcases type_of_reported hc with ⟨_, hs, _⟩ | ⟨_, hs, _⟩
        · exact Or.inl hs
        · exact Or.inr hs
    exact severity_counts _ hsev

/-- C26, at a concrete input: the list left by `detectConflicts` on `santosA`,
`santosB` and `overbooked`, one faculty conflict and one capacity violation. -/
theorem getConflictSummary_counts_witness :
    getConflictSummary
        (detectConflicts { schedules := [santosA, santosB, overbooked] } none).2 =
      { total := 2, high := 1, medium := 1, low := 0
        byType := [("faculty_conflict", 1), ("capacity_violation", 1)] } ∧
      (getConflictSummary
        (detectConflicts { schedules := [santosA, santosB, overbooked] } none).2).total =
        (detectConflicts { schedules := [santosA, santosB, overbooked] } none).2.conflicts.length :=
  ⟨rfl,
    (getConflictSummary_counts
      (detectConflicts { schedules := [santosA, santosB, overbooked] } none).2
      (by decide)).1⟩

/-- C29: the records `inverted` (10:00-09:00) and `morning` (08:00-12:00) have
different ids, the same faculty, different rooms and a shared day, and
`detectConflicts` returns for them a `faculty_conflict` whose `conflictTime` is
`null`; whereas for all records that both have `startTime < endTime` in minutes,
`hasTimeOverlap` holds exactly when `getOverlapTime` is not `null`. -/
theorem conflict_window_null_iff_inverted :
    (inverted.id ≠ morning.id ∧ inverted.faculty = morning.faculty ∧
      inverted.roomName ≠ morning.roomName ∧ hasDayOverlap inverted morning = true ∧
      hhmmMinutes inverted.endTime < hhmmMinutes inverted.startTime ∧
      (detectConflicts { schedules := [inverted, morning] } none).1 =
        .ok [facultyConflict inverted morning] ∧
      (facultyConflict inverted morning).type = "faculty_conflict" ∧
      (facultyConflict inverted morning).conflictTime = some none) ∧
    (∀ a b : ScheduleRecord,
      jsLt (timeToMinutes a.startTime) (timeToMinutes a.endTime) = true →
      jsLt (timeToMinutes b.startTime) (timeToMinutes b.endTime) = true →
      (hasTimeOverlap a b = true ↔ getOverlapTime a b ≠ none)) := by
  refine ⟨⟨by decide, rfl, by decide, rfl, by decide, rfl, rfl, rfl⟩, ?_⟩
  intro a b ha hb
  unfold hasTimeOverlap getOverlapTime
  cases h1 : timeToMinutes a.startTime with
  | none => simp [h1, jsLt] at ha
  | some s1 =>
    cases h2 : timeToMinutes a.endTime with
    | none => simp [h1, h2, jsLt] at ha
    | some e1 =>
      cases h3 : timeToMinutes b.startTime with
      | none => simp [h3, jsLt] at hb
      | some s2 =>
        cases h4 : timeToMinutes b.endTime with
        | none => simp [h3, h4, jsLt] at hb
        | some e2 =>
          simp only [h1, h2, jsLt, decide_eq_true_eq] at ha
          simp only [h3, h4, jsLt, decide_eq_true_eq] at hb
          simp only [jsLt, jsMax, jsMin, jsGe, Bool.and_eq_true, decide_eq_true_eq]
          have key : (s1 < e2 ∧ s2 < e1) ↔ ¬ (min e1 e2 ≤ max s1 s2) := by
            rw [not_le, lt_min_iff, max_lt_iff, max_lt_iff]
            constructor
            · rintro ⟨h1, h2⟩
              exact ⟨⟨ha, h2⟩, h1, hb⟩
            · rintro ⟨⟨_, h2⟩, h1, _⟩
              exact ⟨h1, h2⟩
          rw [key]
          by_cases hge : min e1 e2 ≤ max s1 s2
          · simp [hge]
          · simp [hge]

/-- C29, at a concrete input: `santosA` and `santosB`, both with `startTime <
endTime`, overlap and have a window. -/
theorem conflict_window_null_iff_inverted_witness :
    hasTimeOverlap santosA santosB = true ∧ getOverlapTime santosA santosB ≠ none ∧
      (hasTimeOverlap santosA santosB = true ↔ getOverlapTime santosA santosB ≠ none) :=
  ⟨rfl, by decide, conflict_window_null_iff_inverted.2 santosA santosB rfl rfl⟩

/-- C30, as stated, fails: the natural number `36028797018964024`, which is `2 ^ 55 +
56` and a double, prints as `600479950316067:04` and reads back as
`36028797018964016`, because `600479950316067 * 60` and the sum with `4` lie
halfway between two doubles and are rounded. -/
theorem roundtrip_fails_at_large_minutes :
    36028797018964024 = 2 ^ 55 + 56 ∧ toDouble 36028797018964024 = 36028797018964024 ∧
      minutesToTime (some 36028797018964024) = "600479950316067:04" ∧
      timeToMinutes "600479950316067:04" = some 36028797018964016 ∧
      timeToMinutes (minutesToTime (some 36028797018964024)) ≠ some 36028797018964024 :=
  ⟨by decide, by decide, by decide, by decide, by decide⟩

/-- C30, amended: `timeToMinutes(minutesToTime(m))` is `m` for every natural number `m`
below `2 ^ 53`; `minutesToTime(timeToMinutes(s))` is `s` for every `HH:MM` string
with `MM` up to 59; and on such strings `timeToMinutes` is strictly monotone for
the lexicographic order of strings. -/
theorem time_conversion_roundtrip :
    (∀ m : Nat, m < 2 ^ 53 → timeToMinutes (minutesToTime (some m)) = some m) ∧
    (∀ s : String, isHHMM s = true → hhmmMins s ≤ 59 →
      minutesToTime (timeToMinutes s) = s) ∧
    (∀ s t : String, isHHMM s = true → hhmmMins s ≤ 59 → isHHMM t = true →
      hhmmMins t ≤ 59 → s < t →
      ∃ m n, timeToMinutes s = some m ∧ timeToMinutes t = some n ∧ m < n) := by
  refine ⟨fun m hm => timeToMinutes_minutesToTime hm, ?_, ?_⟩
  · intro s hs hm
    rw [timeToMinutes_of_isHHMM hs]
    exact minutesToTime_hhmmMinutes hs hm
  · intro s t hs hms ht hmt hlt
    refine ⟨_, _, timeToMinutes_of_isHHMM hs, timeToMinutes_of_isHHMM ht, ?_⟩
    obtain ⟨ls⟩ := s
    obtain ⟨lt⟩ := t
    have hlt : ls < lt := String.lt_iff_toList_lt.mp hlt
    unfold isHHMM at hs ht
    match ls, hs, lt, ht with
    | [a1, a2, ac, a3, a4], hs, [b1, b2, bc, b3, b4], ht =>
      simp only [Bool.and_eq_true, beq_iff_eq] at hs ht
      obtain ⟨⟨⟨⟨ha1, ha2⟩, rfl⟩, ha3⟩, ha4⟩ := hs
      obtain ⟨⟨⟨⟨hb1, hb2⟩, rfl⟩, hb3⟩, hb4⟩ := ht
      simp only [hhmmMins] at hms hmt
      simp only [hhmmMinutes, hhmmHours, hhmmMins]
      have l1 := digitValue_le ha1
      have l2 := digitValue_le ha2
      have l3 := digitValue_le ha3
      have l4 := digitValue_le ha4
      have k1 := digitValue_le hb1
      have k2 := digitValue_le hb2
      have k3 := digitValue_le hb3
      have k4 := digitValue_le hb4
      cases hlt with
      | rel h =>
        have := digitValue_lt_of_lt ha1 hb1 h
        omega
      | cons h =>
        cases h with
        | rel h =>
          have := digitValue_lt_of_lt ha2 hb2 h
          omega
        | cons h =>
          cases h with
          | rel h => exact absurd h (by decide)
          | cons h =>
            cases h with
            | rel h =>
              have := digitValue_lt_of_lt ha3 hb3 h
              omega
            | cons h =>
              cases h with
              | rel h =>
                have := digitValue_lt_of_lt ha4 hb4 h
                omega
              | cons h => cases h

/-- C30, amended, at a concrete input: 09:59 is before 10:00 as a string and in
minutes, and both round-trip. -/
theorem time_conversion_roundtrip_witness :
    599 < 2 ^ 53 ∧ timeToMinutes (minutesToTime (some 599)) = some 599 ∧
      minutesToTime (timeToMinutes "09:59") = "09:59" ∧
      ∃ m n, timeToMinutes "09:59" = some m ∧ timeToMinutes "10:00" = some n ∧ m < n :=
  ⟨by decide, time_conversion_roundtrip.1 599 (by decide),
    time_conversion_roundtrip.2.1 "09:59" rfl (by decide),
    time_conversion_roundtrip.2.2 "09:59" "10:00" rfl (by decide) rfl (by decide)
      (String.lt_iff_toList_lt.mpr (by decide))⟩

end RoomManagement
